import Mathlib

/-!
Shallow embedding of the half-edge mesh library (mhintz/half-edge-mesh-rs)
and verification of spec claims against it.

Modelling conventions:
- `Ptr<T>` (a nullable `Weak<RefCell<T>>`) is `Option Nat`: `none` is the empty
  pointer, `some i` a weak reference to the allocation with identity `i`.
- The set of live allocations (the "heap": every `Rc<RefCell<T>>` that has not
  been dropped) is an association list `List (Nat × T)`, keyed by the entity's
  id; the library allocates ids from per-kind monotone counters, so each live
  allocation has a distinct id and the id doubles as the allocation identity.
  `Weak::upgrade` is lookup in this heap; it fails exactly when the entity has
  been deallocated (or the pointer is empty).
- The mesh's three `HashMap<u32, EntityRc>` tables are modelled as the shared
  heap plus one list of registered ids per kind.  `HashMap` iteration order is
  unspecified in Rust; this embedding fixes insertion order, which makes every
  run of the model one possible run of the source program.
- Positions are `cgmath::Point3<f32>` and normals `Vector3<f32>`; the vector
  arithmetic library is an external collaborator (spec section 1), so the
  embedding is parametric in a point type `Pt`, a vector type `Vec3` and a
  bundle `GeomOps` of the operations `compute_attrs` uses.  No algorithm
  branches on geometry, so every theorem below holds for the real `f32`
  arithmetic as a special case.
- Rust panics (slice index out of bounds, `HashMap` index on a missing key)
  are modelled as `Except.error` values whose message starts with `"panic: "`,
  distinct from every `&'static str` error the library returns.
- A lookup of an allocation that a live `Rc` (a local binding, a table entry,
  a caller-held argument) is known to keep alive is written as a `match` whose
  `none` branch is unreachable in the source; those branches are marked.
- An iterator walk that would not terminate in Rust is cut off by a fuel
  bound of one more than the number of live edges; a terminating walk never
  repeats a cursor, so the bound never truncates a walk that Rust finishes.
-/

namespace HalfEdge

/-- Association list primitives standing for `HashMap` (insert replaces the
value under an existing key and otherwise appends, keeping insertion order
as the model's deterministic stand-in for Rust's arbitrary iteration order). -/
def alookup {κ α : Type} [DecidableEq κ] : List (κ × α) → κ → Option α
  | [], _ => none
  | (k, v) :: t, i => if k = i then some v else alookup t i

def aset {κ α : Type} [DecidableEq κ] : List (κ × α) → κ → α → List (κ × α)
  | [], i, v => [(i, v)]
  | (k, w) :: t, i, v => if k = i then (k, v) :: t else (k, w) :: aset t i v

def aupdate {κ α : Type} [DecidableEq κ] : List (κ × α) → κ → (α → α) → List (κ × α)
  | [], _, _ => []
  | (k, w) :: t, i, f => if k = i then (k, f w) :: t else (k, w) :: aupdate t i f

def aerase {κ α : Type} [DecidableEq κ] : List (κ × α) → κ → List (κ × α)
  | [], _ => []
  | (k, w) :: t, i => if k = i then t else (k, w) :: aerase t i

/-- Registered-id lists: `HashMap::insert` under a fresh key appends, under an
existing key replaces (keeping the key), `remove` deletes the key. -/
def insertId (l : List Nat) (i : Nat) : List Nat := if i ∈ l then l else l ++ [i]

def removeId (l : List Nat) (i : Nat) : List Nat := l.erase i

/-- Weak-pointer upgrade: `Option Nat → Option record`. -/
def upg {α : Type} (h : List (Nat × α)) (p : Option Nat) : Option α :=
  p.bind (alookup h)

/-- Upgrade keeping the allocation identity (the model of obtaining an
`Rc` whose identity can be handed on with `Ptr::new`). -/
def upgKey {α : Type} (h : List (Nat × α)) (p : Option Nat) : Option Nat :=
  p.bind (fun i => if (alookup h i).isSome then some i else none)

/-- Ptr::is_valid: the pointer is non-null and its target is still allocated. -/
def ptrIsValid {α : Type} (h : List (Nat × α)) (p : Option Nat) : Bool :=
  p.isSome && (upg h p).isSome

/-- ToPtrVec::to_ptr_vec on a stream of pointers: keep the targets that
upgrade, as allocation ids. -/
def toPtrVec {α : Type} (h : List (Nat × α)) (ptrs : List (Option Nat)) : List Nat :=
  ptrs.filterMap (fun p => upgKey h p)

/-- Id counters are u32 and wrap (an accepted hazard per the source comment). -/
def wrap32 (n : Nat) : Nat := n % 2 ^ 32

/-- External 3D arithmetic collaborator (spec section 1 places it out of
scope): the operations `Face::compute_attrs` needs, over an abstract point
type `Pt` and vector type `Vec3`. -/
structure GeomOps (Pt Vec3 : Type) where
  zeroPt : Pt
  addPt : Pt → Pt → Pt
  divPt : Pt → Nat → Pt
  subPt : Pt → Pt → Vec3
  cross : Vec3 → Vec3 → Vec3
  normalize : Vec3 → Vec3
  unitZ : Vec3

/-- src/edge.rs: Edge { next, pair, origin, face, id }. -/
structure Edge where
  next : Option Nat
  pair : Option Nat
  origin : Option Nat
  face : Option Nat
  id : Nat
deriving DecidableEq, Repr

def Edge.empty (id : Nat) : Edge := ⟨none, none, none, none, id⟩

def Edge.with_origin (id : Nat) (origin : Option Nat) : Edge :=
  ⟨none, none, origin, none, id⟩

/-- src/vert.rs: Vert { edge, pos, id }. -/
structure Vert (Pt : Type) where
  edge : Option Nat
  pos : Pt
  id : Nat
deriving DecidableEq, Repr

def Vert.empty {Pt : Type} (id : Nat) (pos : Pt) : Vert Pt := ⟨none, pos, id⟩

/-- src/face.rs: Face { edge, normal, center, id }. -/
structure Face (Pt Vec3 : Type) where
  edge : Option Nat
  normal : Vec3
  center : Pt
  id : Nat
deriving DecidableEq, Repr

def Face.empty {Pt Vec3 : Type} (g : GeomOps Pt Vec3) (id : Nat) : Face Pt Vec3 :=
  ⟨none, g.unitZ, g.zeroPt, id⟩

def Face.with_edge {Pt Vec3 : Type} (g : GeomOps Pt Vec3) (id : Nat) (edge : Option Nat) :
    Face Pt Vec3 :=
  ⟨edge, g.unitZ, g.zeroPt, id⟩

/-- src/half_edge_mesh.rs: HalfEdgeMesh. `heapE/heapV/heapF` are the live
allocations; `edges/vertices/faces` the tables' registered keys in insertion
order; the counters are the per-kind id allocators. -/
structure HalfEdgeMesh (Pt Vec3 : Type) where
  heapE : List (Nat × Edge)
  heapV : List (Nat × Vert Pt)
  heapF : List (Nat × Face Pt Vec3)
  edges : List Nat
  vertices : List Nat
  faces : List Nat
  cur_edge_id : Nat
  cur_vert_id : Nat
  cur_face_id : Nat
deriving DecidableEq, Repr

namespace HalfEdgeMesh

variable {Pt Vec3 : Type}

def empty : HalfEdgeMesh Pt Vec3 := ⟨[], [], [], [], [], [], 0, 0, 0⟩

def new_edge_id (m : HalfEdgeMesh Pt Vec3) : HalfEdgeMesh Pt Vec3 × Nat :=
  let n := wrap32 (m.cur_edge_id + 1)
  ({ m with cur_edge_id := n }, n)

def new_vert_id (m : HalfEdgeMesh Pt Vec3) : HalfEdgeMesh Pt Vec3 × Nat :=
  let n := wrap32 (m.cur_vert_id + 1)
  ({ m with cur_vert_id := n }, n)

def new_face_id (m : HalfEdgeMesh Pt Vec3) : HalfEdgeMesh Pt Vec3 × Nat :=
  let n := wrap32 (m.cur_face_id + 1)
  ({ m with cur_face_id := n }, n)

/-- Ptr::new_rc for each kind: allocate the record on the heap. -/
def allocE (m : HalfEdgeMesh Pt Vec3) (e : Edge) : HalfEdgeMesh Pt Vec3 :=
  { m with heapE := aset m.heapE e.id e }

def allocV (m : HalfEdgeMesh Pt Vec3) (v : Vert Pt) : HalfEdgeMesh Pt Vec3 :=
  { m with heapV := aset m.heapV v.id v }

def allocF (m : HalfEdgeMesh Pt Vec3) (f : Face Pt Vec3) : HalfEdgeMesh Pt Vec3 :=
  { m with heapF := aset m.heapF f.id f }

/-- Heap mutation through a live reference (`borrow_mut` + a setter). -/
def updE (m : HalfEdgeMesh Pt Vec3) (i : Nat) (f : Edge → Edge) : HalfEdgeMesh Pt Vec3 :=
  { m with heapE := aupdate m.heapE i f }

def updV (m : HalfEdgeMesh Pt Vec3) (i : Nat) (f : Vert Pt → Vert Pt) : HalfEdgeMesh Pt Vec3 :=
  { m with heapV := aupdate m.heapV i f }

def updF (m : HalfEdgeMesh Pt Vec3) (i : Nat) (f : Face Pt Vec3 → Face Pt Vec3) :
    HalfEdgeMesh Pt Vec3 :=
  { m with heapF := aupdate m.heapF i f }

/-- push_edge / push_vert: `self.<table>.insert(rc.borrow().id, rc)`; the key
equals the record's id, which the heap maintains by construction. -/
def push_edge (m : HalfEdgeMesh Pt Vec3) (i : Nat) : HalfEdgeMesh Pt Vec3 :=
  { m with edges := insertId m.edges i }

def push_vert (m : HalfEdgeMesh Pt Vec3) (i : Nat) : HalfEdgeMesh Pt Vec3 :=
  { m with vertices := insertId m.vertices i }

def move_verts (m : HalfEdgeMesh Pt Vec3) (l : List Nat) : HalfEdgeMesh Pt Vec3 :=
  l.foldl push_vert m

/-- add_triangle: plain table inserts of the face and three edges returned by
make_triangle (no attribute recomputation). -/
def add_triangle (m : HalfEdgeMesh Pt Vec3) (t : Nat × Nat × Nat × Nat) :
    HalfEdgeMesh Pt Vec3 :=
  { m with faces := insertId m.faces t.1,
           edges := insertId (insertId (insertId m.edges t.2.1) t.2.2.1) t.2.2.2 }

end HalfEdgeMesh

/-!
Adjacency iterators (src/iterators.rs).  Each walk produces the raw stream of
pointers the Rust iterator yields; `to_ptr_vec` then filters the ones that
upgrade.  `Rc` equality borrows both sides and compares entity ids, so the
loop-completion test compares the `id` fields of the upgraded records.  The
fuel argument only cuts off walks that would not terminate in Rust.
-/

/-- FaceAdjacentEdgeIterator after its first step: cursor `curP`, each step
upgrades the cursor, takes its `next` pointer, merge-upgrades it with the
start and stops when the walk returns to the start edge. -/
def faceEdgePtrsAux (hE : List (Nat × Edge)) (startP : Option Nat) :
    Option Nat → Nat → List (Option Nat)
  | _, 0 => []
  | curP, fuel + 1 =>
    match upg hE curP with
    | none => []
    | some curE =>
      let nextP := curE.next
      match upg hE nextP, upg hE startP with
      | some nextE, some startE =>
        if nextE.id ≠ startE.id then nextP :: faceEdgePtrsAux hE startP nextP fuel else []
      | _, _ => []

/-- FaceAdjacentEdgeIterator: yields the start pointer unconditionally, then
follows `next` until back at the start. -/
def faceEdgePtrs (hE : List (Nat × Edge)) (startP : Option Nat) : List (Option Nat) :=
  startP :: faceEdgePtrsAux hE startP startP (hE.length + 1)

/-- FaceAdjacentVertIterator after its first step: like the edge walk but each
step yields the origin pointer of the next edge. -/
def faceVertPtrsAux (hE : List (Nat × Edge)) (startP : Option Nat) :
    Option Nat → Nat → List (Option Nat)
  | _, 0 => []
  | curP, fuel + 1 =>
    match upg hE curP with
    | none => []
    | some curE =>
      let nextP := curE.next
      match upg hE nextP, upg hE startP with
      | some nextE, some startE =>
        if nextE.id ≠ startE.id then
          nextE.origin :: faceVertPtrsAux hE startP nextP fuel
        else []
      | _, _ => []

/-- FaceAdjacentVertIterator: first upgrades the start edge and yields its
origin pointer, then walks `next`. -/
def faceVertPtrs (hE : List (Nat × Edge)) (startP : Option Nat) : List (Option Nat) :=
  match upg hE startP with
  | none => []
  | some curE => curE.origin :: faceVertPtrsAux hE startP startP (hE.length + 1)

/-- VertAdjacentEdgeIterator after its first step: each step upgrades the
cursor, upgrades its `pair`, takes the pair's `next`, merge-upgrades with the
start and stops once the walk comes back around. -/
def vertEdgePtrsAux (hE : List (Nat × Edge)) (startP : Option Nat) :
    Option Nat → Nat → List (Option Nat)
  | _, 0 => []
  | curP, fuel + 1 =>
    match upg hE curP with
    | none => []
    | some curE =>
      match upg hE curE.pair with
      | none => []
      | some pairE =>
        let nextP := pairE.next
        match upg hE nextP, upg hE startP with
        | some nextE, some startE =>
          if nextE.id ≠ startE.id then nextP :: vertEdgePtrsAux hE startP nextP fuel else []
        | _, _ => []

/-- VertAdjacentEdgeIterator: yields the vertex's edge pointer first (only if
it upgrades), then circles via `pair.next`. -/
def vertEdgePtrs (hE : List (Nat × Edge)) (startP : Option Nat) : List (Option Nat) :=
  match upg hE startP with
  | none => []
  | some _ => startP :: vertEdgePtrsAux hE startP startP (hE.length + 1)

/-- VertAdjacentFaceIterator after its first step: like the edge circle but
each step yields the face pointer of the step's edge. -/
def vertFacePtrsAux (hE : List (Nat × Edge)) (startP : Option Nat) :
    Option Nat → Nat → List (Option Nat)
  | _, 0 => []
  | curP, fuel + 1 =>
    match upg hE curP with
    | none => []
    | some curE =>
      match upg hE curE.pair with
      | none => []
      | some pairE =>
        let nextP := pairE.next
        match upg hE nextP, upg hE startP with
        | some nextE, some startE =>
          if nextE.id ≠ startE.id then
            nextE.face :: vertFacePtrsAux hE startP nextP fuel
          else []
        | _, _ => []

/-- VertAdjacentFaceIterator: upgrades the vertex's edge and yields its face
pointer, then circles via `pair.next`. -/
def vertFacePtrs (hE : List (Nat × Edge)) (startP : Option Nat) : List (Option Nat) :=
  match upg hE startP with
  | none => []
  | some curE => curE.face :: vertFacePtrsAux hE startP startP (hE.length + 1)

/-- Face::adjacent_edges().to_ptr_vec(), as ids of live edges. -/
def face_adjacent_edges {Pt Vec3 : Type} (hE : List (Nat × Edge)) (f : Face Pt Vec3) :
    List Nat :=
  toPtrVec hE (faceEdgePtrs hE f.edge)

/-- Face::adjacent_verts().to_ptr_vec(), as ids of live vertices. -/
def face_adjacent_verts {Pt Vec3 : Type} (hE : List (Nat × Edge))
    (hV : List (Nat × Vert Pt)) (f : Face Pt Vec3) : List Nat :=
  toPtrVec hV (faceVertPtrs hE f.edge)

/-- Vert::adjacent_edges().to_ptr_vec(), as ids of live edges. -/
def vert_adjacent_edges {Pt : Type} (hE : List (Nat × Edge)) (v : Vert Pt) : List Nat :=
  toPtrVec hE (vertEdgePtrs hE v.edge)

/-- Edge::get_target: `next.upgrade()` then the next edge's `origin.upgrade()`. -/
def Edge.get_target {Pt : Type} (hE : List (Nat × Edge)) (hV : List (Nat × Vert Pt))
    (e : Edge) : Option (Vert Pt) :=
  (upg hE e.next).bind (fun n => upg hV n.origin)

/-!
Face::compute_attrs and the registration helpers that invoke it
(src/face.rs lines 58-81, src/half_edge_mesh.rs push_face).
-/

/-- Face::compute_attrs: centroid of all walked boundary vertices and unit
normal from the first three.  The release build has no length assertion, and
`vert_list[0] / [1] / [2]` panic when the walk yields fewer than 3 vertices. -/
def compute_attrs {Pt Vec3 : Type} (g : GeomOps Pt Vec3) (hE : List (Nat × Edge))
    (hV : List (Nat × Vert Pt)) (f : Face Pt Vec3) : Except String (Face Pt Vec3) :=
  let vertIds := face_adjacent_verts hE hV f
  let vertList := vertIds.filterMap (alookup hV)
  match vertList with
  | v0 :: v1 :: v2 :: _ =>
    let centerSum := vertList.foldl (fun c v => g.addPt c v.pos) g.zeroPt
    let center := g.divPt centerSum vertList.length
    let s1 := g.subPt v1.pos v0.pos
    let s2 := g.subPt v2.pos v0.pos
    .ok { f with center := center, normal := g.normalize (g.cross s1 s2) }
  | _ => .error "panic: index out of bounds in compute_attrs"

namespace HalfEdgeMesh

variable {Pt Vec3 : Type}

/-- push_face: recompute the face's attributes, then insert it in the table. -/
def push_face (g : GeomOps Pt Vec3) (m : HalfEdgeMesh Pt Vec3) (i : Nat) :
    Except String (HalfEdgeMesh Pt Vec3) :=
  match alookup m.heapF i with
  | none => .error "panic: face allocation is gone"  -- unreachable: the caller holds the Rc
  | some f =>
    match compute_attrs g m.heapE m.heapV f with
    | .error s => .error s
    | .ok f2 => .ok { m with heapF := aset m.heapF i f2, faces := insertId m.faces i }

/-- make_triangle (src/half_edge_mesh.rs lines 254-284): allocate three edges
and one face, wire the boundary loop and the vertex and face links, compute
the face's attributes, and return the four new ids without registering them. -/
def make_triangle (g : GeomOps Pt Vec3) (m : HalfEdgeMesh Pt Vec3) (p1 p2 p3 : Nat) :
    Except String (HalfEdgeMesh Pt Vec3 × (Nat × Nat × Nat × Nat)) :=
  let (m, i1) := m.new_edge_id
  let m := m.allocE (Edge.with_origin i1 (some p1))
  let (m, i2) := m.new_edge_id
  let m := m.allocE (Edge.with_origin i2 (some p2))
  let (m, i3) := m.new_edge_id
  let m := m.allocE (Edge.with_origin i3 (some p3))
  let m := m.updV p1 (fun v => { v with edge := some i1 })
  let m := m.updV p2 (fun v => { v with edge := some i2 })
  let m := m.updV p3 (fun v => { v with edge := some i3 })
  let m := m.updE i1 (fun e => { e with next := some i2 })
  let m := m.updE i2 (fun e => { e with next := some i3 })
  let m := m.updE i3 (fun e => { e with next := some i1 })
  let (m, fi) := m.new_face_id
  let m := m.allocF (Face.with_edge g fi (some i1))
  let m := m.updE i1 (fun e => { e with face := some fi })
  let m := m.updE i2 (fun e => { e with face := some fi })
  let m := m.updE i3 (fun e => { e with face := some fi })
  match alookup m.heapF fi with
  | none => .error "panic: face allocation is gone"  -- unreachable: just allocated
  | some f1 =>
    match compute_attrs g m.heapE m.heapV f1 with
    | .error s => .error s
    | .ok f2 => .ok ({ m with heapF := aset m.heapF fi f2 }, (fi, i1, i2, i3))

end HalfEdgeMesh

/-!
Pair reconstruction and verification (src/util.rs).
-/

def merge_tuple_opt {A B : Type} : Option A × Option B → Option (A × B)
  | (some a, some b) => some (a, b)
  | _ => none

/-- vert_ab_key: (origin id, next edge's origin id), when both resolve. -/
def vert_ab_key {Pt : Type} (hE : List (Nat × Edge)) (hV : List (Nat × Vert Pt))
    (e : Edge) : Option (Nat × Nat) :=
  let id_origin := (upg hV e.origin).map (fun o => o.id)
  let id_next_origin :=
    ((upg hE e.next).bind (fun n => upg hV n.origin)).map (fun o => o.id)
  merge_tuple_opt (id_origin, id_next_origin)

def vert_ba_key {Pt : Type} (hE : List (Nat × Edge)) (hV : List (Nat × Vert Pt))
    (e : Edge) : Option (Nat × Nat) :=
  (vert_ab_key hE hV e).map (fun t => (t.2, t.1))

/-- First pass shared by connect_pairs and are_edge_pairs_valid: hash every
registered edge under its (origin, target) key; insert replaces. -/
def buildEdgeHash {Pt : Type} (hE : List (Nat × Edge)) (hV : List (Nat × Vert Pt)) :
    List Nat → List ((Nat × Nat) × Nat) → Except String (List ((Nat × Nat) × Nat))
  | [], acc => .ok acc
  | i :: rest, acc =>
    match alookup hE i with
    | none => .error "panic: registered edge is gone"  -- unreachable: the table owns its values
    | some e =>
      match vert_ab_key hE hV e with
      | some key => buildEdgeHash hE hV rest (aset acc key i)
      | none => .error "Could not hash all mesh edges"

/-- Second pass of connect_pairs: for every edge whose pair is not valid, look
up the reverse key and install both pair links, else fail. -/
def connectLoop {Pt Vec3 : Type} (hash : List ((Nat × Nat) × Nat)) :
    List Nat → HalfEdgeMesh Pt Vec3 → HalfEdgeMesh Pt Vec3 × Except String Unit
  | [], m => (m, .ok ())
  | i :: rest, m =>
    match alookup m.heapE i with
    | none => (m, .error "panic: registered edge is gone")  -- unreachable
    | some e =>
      if ptrIsValid m.heapE e.pair then connectLoop hash rest m
      else
        match vert_ba_key m.heapE m.heapV e with
        | some key =>
          match alookup hash key with
          | some j =>
            let m := m.updE i (fun e2 => { e2 with pair := some j })
            let m := m.updE j (fun e2 => { e2 with pair := some i })
            connectLoop hash rest m
          | none => (m, .error "Could not find pair edge")
        | none => (m, .error "Could not find reverse hash for mesh edge")

/-- connect_pairs (src/util.rs lines 23-62). -/
def connect_pairs {Pt Vec3 : Type} (m : HalfEdgeMesh Pt Vec3) :
    HalfEdgeMesh Pt Vec3 × Except String Unit :=
  match buildEdgeHash m.heapE m.heapV m.edges [] with
  | .error s => (m, .error s)
  | .ok hash => connectLoop hash m.edges m

/-- Second pass of are_edge_pairs_valid: every edge's reverse key must hash to
an edge, and the two pair links must resolve to each other (Rc equality
compares entity ids). -/
def pairsCheckLoop {Pt Vec3 : Type} (m : HalfEdgeMesh Pt Vec3)
    (hash : List ((Nat × Nat) × Nat)) : List Nat → Except String Unit
  | [] => .ok ()
  | i :: rest =>
    match alookup m.heapE i with
    | none => .error "panic: registered edge is gone"  -- unreachable
    | some e =>
      match vert_ba_key m.heapE m.heapV e with
      | some key =>
        match alookup hash key with
        | some j =>
          match alookup m.heapE j with
          | none => .error "panic: hashed edge is gone"  -- unreachable: the table owns it
          | some p =>
            if ((upg m.heapE e.pair).map (fun x => x.id) ≠ some p.id) ∨
               ((upg m.heapE p.pair).map (fun x => x.id) ≠ some e.id) then
              .error "Pairs don\'t match"
            else pairsCheckLoop m hash rest
        | none => .error "Could not find a pair edge"
      | none => .error "Could not find reverse hash for mesh edge"

/-- are_edge_pairs_valid (src/util.rs lines 65-96). -/
def are_edge_pairs_valid {Pt Vec3 : Type} (m : HalfEdgeMesh Pt Vec3) :
    Except String Unit :=
  match buildEdgeHash m.heapE m.heapV m.edges [] with
  | .error s => .error s
  | .ok hash => pairsCheckLoop m hash m.edges

/-- report_connect_err prints the error and discards it (the mesh is returned
regardless); printing is I/O outside the model. -/
def report_connect_err (res : Except String Unit) : Unit :=
  match res with
  | .error _ => ()
  | .ok _ => ()

variable {Pt Vec3 : Type}

/-- from_tetrahedron_pts (src/half_edge_mesh.rs lines 47-72). -/
def from_tetrahedron_pts (g : GeomOps Pt Vec3) (p1 p2 p3 p4 : Pt) :
    Except String (HalfEdgeMesh Pt Vec3) := do
  let m : HalfEdgeMesh Pt Vec3 := .empty
  let (m, v1) := m.new_vert_id
  let m := m.allocV (Vert.empty v1 p1)
  let (m, v2) := m.new_vert_id
  let m := m.allocV (Vert.empty v2 p2)
  let (m, v3) := m.new_vert_id
  let m := m.allocV (Vert.empty v3 p3)
  let (m, v4) := m.new_vert_id
  let m := m.allocV (Vert.empty v4 p4)
  let (m, tri) ← m.make_triangle g v1 v2 v3
  let m := m.add_triangle tri
  let (m, tri) ← m.make_triangle g v2 v1 v4
  let m := m.add_triangle tri
  let (m, tri) ← m.make_triangle g v3 v4 v1
  let m := m.add_triangle tri
  let (m, tri) ← m.make_triangle g v4 v3 v2
  let m := m.add_triangle tri
  let m := m.move_verts [v1, v2, v3, v4]
  let (m, res) := connect_pairs m
  let _ := report_connect_err res
  pure m

/-- from_octahedron_pts (src/half_edge_mesh.rs lines 75-109). -/
def from_octahedron_pts (g : GeomOps Pt Vec3) (p1 p2 p3 p4 p5 p6 : Pt) :
    Except String (HalfEdgeMesh Pt Vec3) := do
  let m : HalfEdgeMesh Pt Vec3 := .empty
  let (m, v1) := m.new_vert_id
  let m := m.allocV (Vert.empty v1 p1)
  let (m, v2) := m.new_vert_id
  let m := m.allocV (Vert.empty v2 p2)
  let (m, v3) := m.new_vert_id
  let m := m.allocV (Vert.empty v3 p3)
  let (m, v4) := m.new_vert_id
  let m := m.allocV (Vert.empty v4 p4)
  let (m, v5) := m.new_vert_id
  let m := m.allocV (Vert.empty v5 p5)
  let (m, v6) := m.new_vert_id
  let m := m.allocV (Vert.empty v6 p6)
  let (m, tri) ← m.make_triangle g v1 v2 v3
  let m := m.add_triangle tri
  let (m, tri) ← m.make_triangle g v1 v4 v2
  let m := m.add_triangle tri
  let (m, tri) ← m.make_triangle g v1 v3 v5
  let m := m.add_triangle tri
  let (m, tri) ← m.make_triangle g v1 v5 v4
  let m := m.add_triangle tri
  let (m, tri) ← m.make_triangle g v6 v3 v2
  let m := m.add_triangle tri
  let (m, tri) ← m.make_triangle g v6 v2 v4
  let m := m.add_triangle tri
  let (m, tri) ← m.make_triangle g v6 v5 v3
  let m := m.add_triangle tri
  let (m, tri) ← m.make_triangle g v6 v4 v5
  let m := m.add_triangle tri
  let m := m.move_verts [v1, v2, v3, v4, v5, v6]
  let (m, res) := connect_pairs m
  let _ := report_connect_err res
  pure m

/-- Vertex pass of from_face_vertex_mesh: allocate and register one vertex per
input position, recording input index → vertex id. -/
def fvVertLoop (m : HalfEdgeMesh Pt Vec3) (idx : Nat) (idMap : List (Nat × Nat)) :
    List Pt → HalfEdgeMesh Pt Vec3 × List (Nat × Nat)
  | [] => (m, idMap)
  | pos :: rest =>
    let (m, vid) := m.new_vert_id
    let m := m.allocV (Vert.empty vid pos)
    let idMap := aset idMap idx vid
    let m := m.push_vert vid
    fvVertLoop m (idx + 1) idMap rest

/-- Inner edge-creation pass of from_face_vertex_mesh, over one triangle's
three indices. -/
def fvEdgeLoop (idMap : List (Nat × Nat)) (fid : Nat) :
    List Nat → HalfEdgeMesh Pt Vec3 → List Nat → HalfEdgeMesh Pt Vec3 × List Nat
  | [], m, acc => (m, acc)
  | idx :: rest, m, acc =>
    match alookup idMap idx with
    | some vert_id =>
      if vert_id ∈ m.vertices then
        let (m, eid) := m.new_edge_id
        match alookup m.heapV vert_id with
        | some _ =>
          let m := m.allocE (Edge.with_origin eid (some vert_id))
          let m := m.updE eid (fun e => { e with face := some fid })
          let m := m.updV vert_id (fun v => { v with edge := some eid })
          fvEdgeLoop idMap fid rest m (acc ++ [eid])
        | none => fvEdgeLoop idMap fid rest m acc
      else fvEdgeLoop idMap fid rest m acc
    | none => fvEdgeLoop idMap fid rest m acc

/-- Next-link wiring pass of from_face_vertex_mesh: each new edge points to
the cyclically following one. -/
def fvWireNexts (m : HalfEdgeMesh Pt Vec3) (newEdges : List Nat) : HalfEdgeMesh Pt Vec3 :=
  (List.range newEdges.length).foldl (fun m idx =>
    match newEdges.get? idx, newEdges.get? ((idx + 1) % newEdges.length) with
    | some e, some n => m.updE e (fun r => { r with next := some n })
    | _, _ => m) m

/-- Face pass of from_face_vertex_mesh: one face per index triple. -/
def fvFaceLoop (g : GeomOps Pt Vec3) (idMap : List (Nat × Nat)) :
    List (Nat × Nat × Nat) → HalfEdgeMesh Pt Vec3 → Except String (HalfEdgeMesh Pt Vec3)
  | [], m => .ok m
  | (a, b, c) :: rest, m =>
    let (m, fid) := m.new_face_id
    let m := m.allocF (Face.empty g fid)
    let (m, newEdges) := fvEdgeLoop idMap fid [a, b, c] m []
    let m := fvWireNexts m newEdges
    let m :=
      match newEdges.get? 0 with
      | some e0 => m.updF fid (fun f => { f with edge := some e0 })
      | none => m
    let m := newEdges.foldl HalfEdgeMesh.push_edge m
    match m.push_face g fid with
    | .error s => .error s
    | .ok m => fvFaceLoop g idMap rest m

/-- from_face_vertex_mesh (src/half_edge_mesh.rs lines 111-161): build one
face with fresh edges per index triple, reconstruct pairs, print-and-discard
any connect error, and return the mesh regardless. -/
def from_face_vertex_mesh (g : GeomOps Pt Vec3) (vertices : List Pt)
    (indices : List (Nat × Nat × Nat)) : Except String (HalfEdgeMesh Pt Vec3) :=
  let m : HalfEdgeMesh Pt Vec3 := .empty
  let (m, idMap) := fvVertLoop m 0 [] vertices
  match fvFaceLoop g idMap indices m with
  | .error s => .error s
  | .ok m =>
    let (m, res) := connect_pairs m
    let _ := report_connect_err res
    .ok m

/-!
triangulate_face (src/half_edge_mesh.rs lines 307-376).
-/

/-- The per-boundary-edge loop of triangulate_face: rewire the base edge into a
new face with a fresh leading and trailing edge to the apex. -/
def triFaceLoop (g : GeomOps Pt Vec3) (faceVerts : List Nat) (vlen : Nat) (apexId : Nat) :
    List Nat → Nat → HalfEdgeMesh Pt Vec3 → List Nat → List Nat →
    Except String (HalfEdgeMesh Pt Vec3 × List Nat × List Nat)
  | [], _, m, leads, trails => .ok (m, leads, trails)
  | baseId :: rest, i, m, leads, trails =>
    match faceVerts.get? i with
    | none => .error "panic: index out of bounds in triangulate_face"
    | some vi =>
      let m := m.updE baseId (fun e => { e with origin := some vi })
      let m :=
        match alookup m.heapE baseId with
        | some be =>
          match upgKey m.heapV be.origin with
          | some oid => m.updV oid (fun v => { v with edge := some baseId })
          | none => m
        | none => m   -- unreachable: the face-edge vec holds this edge's Rc
      let (m, nfid) := m.new_face_id
      let m := m.allocF (Face.with_edge g nfid (some baseId))
      match faceVerts.get? ((i + 1) % vlen) with
      | none => .error "panic: index out of bounds in triangulate_face"
      | some vnext =>
        let (m, leadId) := m.new_edge_id
        let m := m.allocE (Edge.with_origin leadId (some vnext))
        let (m, trailId) := m.new_edge_id
        let m := m.allocE (Edge.with_origin trailId (some apexId))
        let m := m.updE baseId (fun e => { e with face := some nfid })
        let m := m.updE leadId (fun e => { e with face := some nfid })
        let m := m.updE trailId (fun e => { e with face := some nfid })
        let m := m.updE baseId (fun e => { e with next := some leadId })
        let m := m.updE leadId (fun e => { e with next := some trailId })
        let m := m.updE trailId (fun e => { e with next := some baseId })
        let m := m.updV apexId (fun v => { v with edge := some trailId })
        let m := m.push_edge leadId
        let m := m.push_edge trailId
        match m.push_face g nfid with
        | .error s => .error s
        | .ok m =>
          triFaceLoop g faceVerts vlen apexId rest (i + 1) m
            (leads ++ [leadId]) (trails ++ [trailId])

/-- The pair-connection loop of triangulate_face: leading edge i pairs with
trailing edge (i + 1) mod 3. -/
def triPairLoop (m : HalfEdgeMesh Pt Vec3) (leads trails : List Nat) :
    HalfEdgeMesh Pt Vec3 :=
  (List.range leads.length).foldl (fun m i =>
    match leads.get? i, trails.get? ((i + 1) % trails.length) with
    | some l, some t =>
      let m := m.updE l (fun e => { e with pair := some t })
      m.updE t (fun e => { e with pair := some l })
    | _, _ => m) m

/-- triangulate_face: 1→3 subdivision of a (structurally assumed triangular)
face around a fresh apex vertex; the original face is unregistered at the end. -/
def triangulate_face (g : GeomOps Pt Vec3) (point : Pt) (fid : Nat)
    (m : HalfEdgeMesh Pt Vec3) : Except String (HalfEdgeMesh Pt Vec3) :=
  match alookup m.heapF fid with
  | none => .error "panic: face allocation is gone"  -- unreachable: caller holds the FaceRc
  | some target =>
    let face_edges := face_adjacent_edges m.heapE target
    let face_vertices := face_adjacent_verts m.heapE m.heapV target
    let vertices_len := face_vertices.length
    -- the debug_assert! length checks at lines 314-315 vanish in release builds
    let (m, apexId) := m.new_vert_id
    let m := m.allocV (Vert.empty apexId point)
    match triFaceLoop g face_vertices vertices_len apexId face_edges 0 m [] [] with
    | .error s => .error s
    | .ok (m, leads, trails) =>
      let m := m.push_vert apexId
      let m := triPairLoop m leads trails
      match alookup m.heapF fid with
      | some tf => .ok { m with faces := removeId m.faces tf.id }
      | none => .ok { m with faces := removeId m.faces fid }  -- unreachable: the heap only grew

/-- triangulate_face_ptr (lines 371-376): a failed upgrade is silently ignored. -/
def triangulate_face_ptr (g : GeomOps Pt Vec3) (point : Pt) (p : Option Nat)
    (m : HalfEdgeMesh Pt Vec3) : Except String (HalfEdgeMesh Pt Vec3) :=
  match upgKey m.heapF p with
  | some fid => triangulate_face g point fid m
  | none => .ok m

/-!
attach_point_for_faces (src/half_edge_mesh.rs lines 383-555).
-/

/-- The scan state accumulated over the removed faces: the horizon-edge map
(id → edge, insertion ordered), ids of edges and vertices marked for removal,
and the first horizon edge discovered. -/
structure AttachScan where
  horizon_edges : List (Nat × Nat)
  remove_edges : List Nat
  remove_verts : List Nat
  iter_edge : Option Nat
deriving DecidableEq, Repr

def AttachScan.init : AttachScan := ⟨[], [], [], none⟩

/-- Edge-classification pass over one removed face's boundary edges: an edge
whose pair's face is also being removed (or whose links do not resolve) is
marked for removal; otherwise it is a horizon edge and its origin vertex's
edge pointer is redirected to it. -/
def attachClassifyEdges (outIds : List Nat) :
    List Nat → HalfEdgeMesh Pt Vec3 → AttachScan → HalfEdgeMesh Pt Vec3 × AttachScan
  | [], m, sc => (m, sc)
  | eid :: rest, m, sc =>
    match alookup m.heapE eid with
    | none => attachClassifyEdges outIds rest m sc   -- unreachable: to_ptr_vec upgraded it
    | some fe =>
      let remove_edge :=
        (((upg m.heapE fe.pair).bind (fun p => upg m.heapF p.face)).map
          (fun f => outIds.contains f.id)).getD true
      if remove_edge then
        attachClassifyEdges outIds rest m
          { sc with remove_edges := sc.remove_edges ++ [fe.id] }
      else
        let m :=
          match fe.origin with
          | some oid => m.updV oid (fun v => { v with edge := some eid })
          | none => m
        let sc :=
          { sc with
            iter_edge := if sc.iter_edge.isNone then some eid else sc.iter_edge,
            horizon_edges := aset sc.horizon_edges fe.id eid }
        attachClassifyEdges outIds rest m sc

/-- Vertex-classification pass over one removed face's boundary vertices: a
vertex all of whose walked faces are being removed (broken links count as
removed) is marked for removal. -/
def attachClassifyVerts (m : HalfEdgeMesh Pt Vec3) (outIds : List Nat) :
    List Nat → AttachScan → AttachScan
  | [], sc => sc
  | vid :: rest, sc =>
    match alookup m.heapV vid with
    | none => attachClassifyVerts m outIds rest sc   -- unreachable: to_ptr_vec upgraded it
    | some fv =>
      let facePtrs := vertFacePtrs m.heapE fv.edge
      let remove_vert := facePtrs.all (fun fp =>
        ((upg m.heapF fp).map (fun f => outIds.contains f.id)).getD true)
      if remove_vert then
        attachClassifyVerts m outIds rest
          { sc with remove_verts := sc.remove_verts ++ [fv.id] }
      else attachClassifyVerts m outIds rest sc

/-- Phase 1 of attach_point_for_faces: classify each removed face's boundary
edges and vertices. -/
def attachScanFaces (outIds : List Nat) :
    List Nat → HalfEdgeMesh Pt Vec3 → AttachScan → HalfEdgeMesh Pt Vec3 × AttachScan
  | [], m, sc => (m, sc)
  | fid :: rest, m, sc =>
    match alookup m.heapF fid with
    | none => attachScanFaces outIds rest m sc   -- unreachable: the caller holds the FaceRc
    | some f =>
      let edgeIds := face_adjacent_edges m.heapE f
      let (m, sc) := attachClassifyEdges outIds edgeIds m sc
      let vertIds :=
        match alookup m.heapF fid with
        | some f2 => face_adjacent_verts m.heapE m.heapV f2
        | none => []
      let sc := attachClassifyVerts m outIds vertIds sc
      attachScanFaces outIds rest m sc

/-- The inner search of the successor pass: the first edge around the target
vertex that upgrades and is a horizon edge. -/
def findHorizonAdj (hE : List (Nat × Edge)) (horizon : List (Nat × Nat)) :
    List (Option Nat) → Option Nat
  | [] => none
  | p :: rest =>
    match upg hE p with
    | some adjE =>
      if (alookup horizon adjE.id).isSome then some adjE.id
      else findHorizonAdj hE horizon rest
    | none => findHorizonAdj hE horizon rest

/-- Successor pass: for each horizon edge, record the first horizon edge found
among the edges around its target vertex. -/
def attachSuccMap (m : HalfEdgeMesh Pt Vec3) (horizon : List (Nat × Nat)) :
    List (Nat × Nat) → List (Nat × Nat) → List (Nat × Nat)
  | [], acc => acc
  | (_, eid) :: rest, acc =>
    match alookup m.heapE eid with
    | none => attachSuccMap m horizon rest acc   -- unreachable: the horizon map holds the Rc
    | some h =>
      match Edge.get_target m.heapE m.heapV h with
      | some tv =>
        let adj := vertEdgePtrs m.heapE tv.edge
        match findHorizonAdj m.heapE horizon adj with
        | some adjId => attachSuccMap m horizon rest (aset acc h.id adjId)
        | none => attachSuccMap m horizon rest acc
      | none => attachSuccMap m horizon rest acc

/-- The horizon-ordering loop: follow the successor map from the first
horizon edge until it returns to the start (table indexing and map indexing
panic on a missing key). -/
def attachHorizonVec (m : HalfEdgeMesh Pt Vec3) (succ : List (Nat × Nat))
    (startId : Nat) : Nat → Nat → List Nat → Except String (List Nat)
  | _, 0, _ => .error "panic: the horizon loop does not close"
  | iterId, fuel + 1, acc =>
    if iterId ∈ m.edges then
      let acc := acc ++ [iterId]
      match alookup succ iterId with
      | none => .error "panic: missing key in horizon_next_map"
      | some nxt =>
        if nxt = startId then .ok acc else attachHorizonVec m succ startId nxt fuel acc
    else .error "panic: horizon edge is not in the edge table"

/-- First pass over the ordered horizon: build one new face per horizon edge,
with a fresh leading edge from the next edge's origin and a fresh trailing
edge from the apex. -/
def attachBuildLoop (g : GeomOps Pt Vec3) (apexId : Nat) (hvec : List Nat) (hlen : Nat) :
    List Nat → Nat → HalfEdgeMesh Pt Vec3 → List Nat →
    HalfEdgeMesh Pt Vec3 × Except String (List Nat)
  | [], _, m, ret => (m, .ok ret)
  | baseId :: rest, idx, m, ret =>
    match hvec.get? ((idx + 1) % hlen) with
    | none => (m, .error "panic: index out of bounds")   -- unreachable: hlen = hvec.length
    | some nextId =>
      match alookup m.heapE nextId with
      | none => (m, .error "panic: horizon edge allocation is gone")   -- unreachable
      | some nextE =>
        match upgKey m.heapV nextE.origin with
        | none => (m, .error "Could not set up horizon faces correctly")
        | some originId =>
          let (m, nfid) := m.new_face_id
          let m := m.allocF (Face.with_edge g nfid (some baseId))
          let (m, leadId) := m.new_edge_id
          let m := m.allocE (Edge.with_origin leadId (some originId))
          let (m, trailId) := m.new_edge_id
          let m := m.allocE (Edge.with_origin trailId (some apexId))
          let m := m.updV apexId (fun v => { v with edge := some trailId })
          let m := m.updE baseId (fun e => { e with next := some leadId })
          let m := m.updE leadId (fun e => { e with next := some trailId })
          let m := m.updE trailId (fun e => { e with next := some baseId })
          let m := m.updE baseId (fun e => { e with face := some nfid })
          let m := m.updE leadId (fun e => { e with face := some nfid })
          let m := m.updE trailId (fun e => { e with face := some nfid })
          let m := m.push_edge leadId
          let m := m.push_edge trailId
          let ret := ret ++ [nfid]
          match m.push_face g nfid with
          | .error s => (m, .error s)
          | .ok m => attachBuildLoop g apexId hvec hlen rest (idx + 1) m ret

/-- Second pass over the ordered horizon: pair each base edge's next edge with
the next base edge's next-next edge. -/
def attachPairLoop (hvec : List Nat) (hlen : Nat) :
    List Nat → Nat → HalfEdgeMesh Pt Vec3 → HalfEdgeMesh Pt Vec3 × Except String Unit
  | [], _, m => (m, .ok ())
  | baseId :: rest, idx, m =>
    match hvec.get? ((idx + 1) % hlen) with
    | none => (m, .error "panic: index out of bounds")   -- unreachable
    | some nextId =>
      let nextKey := (alookup m.heapE baseId).bind (fun b => upgKey m.heapE b.next)
      let pairKey := (alookup m.heapE nextId).bind (fun n =>
        (upg m.heapE n.next).bind (fun n2 => upgKey m.heapE n2.next))
      match nextKey, pairKey with
      | some nk, some pk =>
        let m := m.updE nk (fun e => { e with pair := some pk })
        let m := m.updE pk (fun e => { e with pair := some nk })
        attachPairLoop hvec hlen rest (idx + 1) m
      | _, _ => (m, .error "Could not connect pair edges")

/-- attach_point_for_faces: horizon-stitching point attachment.  `fs` are the
allocation ids of the caller-held `Vec<FaceRc>` of faces to remove. -/
def attach_point_for_faces (g : GeomOps Pt Vec3) (point : Pt) (fs : List Nat)
    (m : HalfEdgeMesh Pt Vec3) : HalfEdgeMesh Pt Vec3 × Except String (List Nat) :=
  let outIds := fs.filterMap (fun i => (alookup m.heapF i).map (fun f => f.id))
  let (m, sc) := attachScanFaces outIds fs m .init
  match sc.iter_edge with
  | none => (m, .error "No horizon edges found")
  | some startEdgeId =>
    let succ := attachSuccMap m sc.horizon_edges sc.horizon_edges []
    let keys := succ.map (fun p => p.1)
    let vals := succ.map (fun p => p.2)
    if keys.all (fun k => vals.contains k) && vals.all (fun v => keys.contains v) then
      match attachHorizonVec m succ startEdgeId startEdgeId (succ.length + 1) [] with
      | .error s => (m, .error s)
      | .ok hvec =>
        -- Removals: faces leave the table only (the caller's Vec keeps them
        -- allocated); vertices and interior edges lose their last strong
        -- reference, so they leave the heap too (a horizon-held edge would not,
        -- but the horizon and removal sets are disjoint).
        let m := fs.foldl (fun (m : HalfEdgeMesh Pt Vec3) i =>
                   match alookup m.heapF i with
                   | some f => { m with faces := removeId m.faces f.id }
                   | none => m) m
        let m := sc.remove_verts.foldl (fun (m : HalfEdgeMesh Pt Vec3) i =>
                   { m with vertices := removeId m.vertices i, heapV := aerase m.heapV i }) m
        let m := sc.remove_edges.foldl (fun (m : HalfEdgeMesh Pt Vec3) i =>
                   let m2 := { m with edges := removeId m.edges i }
                   if (alookup sc.horizon_edges i).isSome then m2
                   else { m2 with heapE := aerase m2.heapE i }) m
        let (m, apexId) := m.new_vert_id
        let m := m.allocV (Vert.empty apexId point)
        match attachBuildLoop g apexId hvec hvec.length hvec 0 m [] with
        | (m, .error s) => (m, .error s)
        | (m, .ok ret) =>
          let m := m.push_vert apexId
          match attachPairLoop hvec hvec.length hvec 0 m with
          | (m, .error s) => (m, .error s)
          | (m, .ok _) => (m, .ok ret)
    else (m, .error "Horizon is malformed - it does not form a connected loop")

/-!
remove_vert (src/half_edge_mesh.rs lines 566-611).
-/

/-- The per-incident-edge loop of remove_vert: splice the edge's next edge
into the replacement face, then drop the edge and its pair from the table
(the pair is deallocated unless it is one of the locally held edges). -/
def removeVertLoop (nfid : Nat) (edgesVec : List Nat) :
    List Nat → Nat → HalfEdgeMesh Pt Vec3 → HalfEdgeMesh Pt Vec3
  | [], _, m => m
  | eid :: rest, idx, m =>
    let m :=
      match alookup m.heapE eid with
      | none => m   -- unreachable: the local vec holds this edge's Rc
      | some edge_b =>
        let m :=
          match upgKey m.heapE edge_b.next with
          | some nk =>
            let m := m.updE nk (fun e => { e with face := some nfid })
            let m :=
              match (edgesVec.get? ((idx + 1) % edgesVec.length)).bind (alookup m.heapE) with
              | some e2 => m.updE nk (fun e => { e with next := e2.next })
              | none => m
            let m := m.updF nfid (fun f => { f with edge := some nk })
            match (alookup m.heapE nk).bind (fun nrec => upgKey m.heapV nrec.origin) with
            | some ovid => m.updV ovid (fun v => { v with edge := some nk })
            | none => m
          | none => m
        let m :=
          match upgKey m.heapE edge_b.pair with
          | some pk =>
            let m2 := { m with edges := removeId m.edges pk }
            if pk ∈ edgesVec then m2 else { m2 with heapE := aerase m2.heapE pk }
          | none => m
        { m with edges := removeId m.edges eid }
    removeVertLoop nfid edgesVec rest (idx + 1) m

/-- The final face-removal loop of remove_vert: remove (and deallocate) every
face the walk around the vertex still reaches. -/
def removeFacesLoop : List (Option Nat) → HalfEdgeMesh Pt Vec3 → HalfEdgeMesh Pt Vec3
  | [], m => m
  | fp :: rest, m =>
    let m :=
      match upg m.heapF fp with
      | some f => { m with faces := removeId m.faces f.id, heapF := aerase m.heapF f.id }
      | none => m
    removeFacesLoop rest m

/-- remove_vert: collapse a valence-3 vertex, merging its three incident faces
into one fresh face. -/
def remove_vert (g : GeomOps Pt Vec3) (m : HalfEdgeMesh Pt Vec3) (vid : Nat) :
    HalfEdgeMesh Pt Vec3 × Except String Unit :=
  match alookup m.heapV vid with
  | none => (m, .error "panic: vertex allocation is gone")  -- unreachable: caller holds &VertRc
  | some vert_b =>
    let edges := (vert_adjacent_edges m.heapE vert_b).reverse
    if edges.length ≠ 3 then (m, .error "Vertex must have exactly 3 connecting edges")
    else
      let (m, nfid) := m.new_face_id
      let m := m.allocF (Face.empty g nfid)
      let m := removeVertLoop nfid edges edges 0 m
      match m.push_face g nfid with
      | .error s => (m, .error s)
      | .ok m =>
        let vcur := (alookup m.heapV vid).getD vert_b
        let m := removeFacesLoop (vertFacePtrs m.heapE vcur.edge) m
        ({ m with vertices := removeId m.vertices vid }, .ok ())

/-- remove_vert_ptr (lines 606-611): a failed upgrade is reported as an error. -/
def remove_vert_ptr (g : GeomOps Pt Vec3) (m : HalfEdgeMesh Pt Vec3) (p : Option Nat) :
    HalfEdgeMesh Pt Vec3 × Except String Unit :=
  match upgKey m.heapV p with
  | some vid => remove_vert g m vid
  | none => (m, .error "Provided pointer was invalid")

/-!
Auxiliary definitions for the verification: frame relations, the geometry-
erasing skeleton, decidability, and concrete meshes used as witnesses and
counterexamples.
-/

instance exceptDecEq {ε α : Type} [DecidableEq ε] [DecidableEq α] : DecidableEq (Except ε α)
  | .ok a, .ok b =>
    if h : a = b then .isTrue (by rw [h]) else .isFalse (by simp [h])
  | .ok _, .error _ => .isFalse (by simp)
  | .error _, .ok _ => .isFalse (by simp)
  | .error a, .error b =>
    if h : a = b then .isTrue (by rw [h]) else .isFalse (by simp [h])

/-- The trivial geometry instance used for concrete evaluation: no algorithm
branches on geometry, so it exercises exactly the same control flow as f32. -/
def uOps : GeomOps Unit Unit :=
  ⟨(), fun _ _ => (), fun _ _ => (), fun _ _ => (), fun _ _ => (), fun _ => (), ()⟩

/-- Value-mapping of an association list (keys untouched). -/
def mapSnd {κ α β : Type} (f : α → β) (l : List (κ × α)) : List (κ × β) :=
  l.map (fun p => (p.1, f p.2))

def mapVert {Pt : Type} (v : Vert Pt) : Vert Unit := ⟨v.edge, (), v.id⟩

def mapFace {Pt Vec3 : Type} (f : Face Pt Vec3) : Face Unit Unit := ⟨f.edge, (), (), f.id⟩

/-- Geometry-erasing skeleton of a mesh: connectivity, identities and tables
are kept, positions and face attributes are dropped.  Every operation of the
library commutes with it because no algorithm branches on geometry. -/
def skeleton (m : HalfEdgeMesh Pt Vec3) : HalfEdgeMesh Unit Unit :=
  ⟨m.heapE, mapSnd mapVert m.heapV, mapSnd mapFace m.heapF,
   m.edges, m.vertices, m.faces, m.cur_edge_id, m.cur_vert_id, m.cur_face_id⟩

/-- Frame relation for attach_point_for_faces' pre-commit error paths: the
whole mesh agrees except that vertices' incident-edge pointers may differ. -/
def VertFrame (m m2 : HalfEdgeMesh Pt Vec3) : Prop :=
  m2.heapE = m.heapE ∧ m2.heapF = m.heapF ∧
  m2.edges = m.edges ∧ m2.vertices = m.vertices ∧ m2.faces = m.faces ∧
  m2.cur_edge_id = m.cur_edge_id ∧ m2.cur_vert_id = m.cur_vert_id ∧
  m2.cur_face_id = m.cur_face_id ∧
  mapSnd (fun (v : Vert Pt) => (v.pos, v.id)) m2.heapV =
    mapSnd (fun (v : Vert Pt) => (v.pos, v.id)) m.heapV

/-- The pair-free shape of an edge record. -/
def eShape (e : Edge) : Option Nat × Option Nat × Option Nat × Nat :=
  (e.next, e.origin, e.face, e.id)

/-- Frame relation for connect_pairs: the whole mesh agrees except that edges'
pair links may differ. -/
def PairFrame (m m2 : HalfEdgeMesh Pt Vec3) : Prop :=
  m2.heapV = m.heapV ∧ m2.heapF = m.heapF ∧
  m2.edges = m.edges ∧ m2.vertices = m.vertices ∧ m2.faces = m.faces ∧
  m2.cur_edge_id = m.cur_edge_id ∧ m2.cur_vert_id = m.cur_vert_id ∧
  m2.cur_face_id = m.cur_face_id ∧
  mapSnd eShape m2.heapE = mapSnd eShape m.heapE

/-- The (origin id, target id) hashing key of the edge registered under id k,
exactly as both pairing passes read it. -/
def abKeyAt (m : HalfEdgeMesh Pt Vec3) (k : Nat) : Option (Nat × Nat) :=
  (alookup m.heapE k).bind (fun e => vert_ab_key m.heapE m.heapV e)

/-- Reversal of a hashing key (the ba key of an edge is the swap of its ab
key). -/
def swapKey (t : Nat × Nat) : Nat × Nat := (t.2, t.1)

/-- The registered edge with id k exists and its pair link upgrades. -/
def PairValidAt (m : HalfEdgeMesh Pt Vec3) (k : Nat) : Prop :=
  ∀ e, alookup m.heapE k = some e → ptrIsValid m.heapE e.pair = true

/-- Mutual-pairing invariant of connect_pairs' second pass: every registered
edge whose pair link is valid is one half of a mutually linked pair whose
hashing keys are reverses of each other. -/
def MutualInv (edges : List Nat) (m : HalfEdgeMesh Pt Vec3) : Prop :=
  ∀ k ∈ edges, ∀ e, alookup m.heapE k = some e → ptrIsValid m.heapE e.pair = true →
    ∃ j p, e.pair = some j ∧ j ∈ edges ∧ alookup m.heapE j = some p ∧ p.pair = some k ∧
      abKeyAt m j = (abKeyAt m k).map swapKey

/-- Everything connectLoop relies on and maintains: the first-pass hash is
exactly the key-to-edge map of the registered edges, registered edges stay
allocated, no key is degenerate (origin equals target), and valid pair links
are mutual. -/
def LoopInv (edges : List Nat) (hash : List ((Nat × Nat) × Nat))
    (m : HalfEdgeMesh Pt Vec3) : Prop :=
  (∀ key j, alookup hash key = some j ↔ (j ∈ edges ∧ abKeyAt m j = some key)) ∧
  (∀ k ∈ edges, (alookup m.heapE k).isSome = true) ∧
  (∀ k ∈ edges, ∀ t, abKeyAt m k = some t → t.1 ≠ t.2) ∧
  MutualInv edges m

/-- The double mutation connectLoop performs on a hash hit: both pair links
of the two partner edges are installed. -/
def pairInstall (m : HalfEdgeMesh Pt Vec3) (i j : Nat) : HalfEdgeMesh Pt Vec3 :=
  (m.updE i (fun e2 => { e2 with pair := some j })).updE j
    (fun e2 => { e2 with pair := some i })

/-- One registered triangle: face 1 with boundary 1→2→3→1 over vertices
1, 2, 3; no pairs (a lone triangle). -/
def triMesh : HalfEdgeMesh Unit Unit where
  heapE := [(1, ⟨some 2, none, some 1, some 1, 1⟩),
            (2, ⟨some 3, none, some 2, some 1, 2⟩),
            (3, ⟨some 1, none, some 3, some 1, 3⟩)]
  heapV := [(1, ⟨some 1, (), 1⟩), (2, ⟨some 2, (), 2⟩), (3, ⟨some 3, (), 3⟩)]
  heapF := [(1, ⟨some 1, (), (), 1⟩)]
  edges := [1, 2, 3]
  vertices := [1, 2, 3]
  faces := [1]
  cur_edge_id := 3
  cur_vert_id := 3
  cur_face_id := 1

/-- Counterexample mesh for the attach frame claim: face 1 (to be removed) has
boundary 1→2→3→1; edges 1 and 2 pair into the kept face 2, edge 3 has no
pair.  Vertex 1 initially points at edge 3, so the horizon scan redirects it.
The horizon successor relation comes out as {1 ↦ 2} (edge 2's target walk
finds no horizon edge), whose key and value sets differ. -/
def cexMeshA : HalfEdgeMesh Unit Unit where
  heapE := [(1, ⟨some 2, some 4, some 1, some 1, 1⟩),
            (2, ⟨some 3, some 5, some 2, some 1, 2⟩),
            (3, ⟨some 1, none, some 3, some 1, 3⟩),
            (4, ⟨none, some 1, none, some 2, 4⟩),
            (5, ⟨none, some 2, none, some 2, 5⟩)]
  heapV := [(1, ⟨some 3, (), 1⟩), (2, ⟨some 2, (), 2⟩), (3, ⟨some 3, (), 3⟩)]
  heapF := [(1, ⟨some 1, (), (), 1⟩), (2, ⟨some 4, (), (), 2⟩)]
  edges := [1, 2, 3, 4, 5]
  vertices := [1, 2, 3]
  faces := [1, 2]
  cur_edge_id := 5
  cur_vert_id := 3
  cur_face_id := 2

/-- Counterexample mesh for the connect_pairs frame claim: edges 1 (v1→v2)
and 2 (v2→v1) pair up, then edge 3 (v3→v1) has no reverse and the second
pass fails after the first pair was already installed. -/
def cexMeshB : HalfEdgeMesh Unit Unit where
  heapE := [(1, ⟨some 2, none, some 1, none, 1⟩),
            (2, ⟨some 1, none, some 2, none, 2⟩),
            (3, ⟨some 1, none, some 3, none, 3⟩)]
  heapV := [(1, ⟨none, (), 1⟩), (2, ⟨none, (), 2⟩), (3, ⟨none, (), 3⟩)]
  heapF := []
  edges := [1, 2, 3]
  vertices := [1, 2, 3]
  faces := []
  cur_edge_id := 3
  cur_vert_id := 3
  cur_face_id := 0

/-- Witness mesh for connect_pairs correctness: two triangles glued along all
three edges (a closed pillow), pair-less. -/
def pillowMesh : HalfEdgeMesh Unit Unit where
  heapE := [(1, ⟨some 2, none, some 1, some 1, 1⟩),
            (2, ⟨some 3, none, some 2, some 1, 2⟩),
            (3, ⟨some 1, none, some 3, some 1, 3⟩),
            (4, ⟨some 5, none, some 1, some 2, 4⟩),
            (5, ⟨some 6, none, some 3, some 2, 5⟩),
            (6, ⟨some 4, none, some 2, some 2, 6⟩)]
  heapV := [(1, ⟨some 1, (), 1⟩), (2, ⟨some 2, (), 2⟩), (3, ⟨some 3, (), 3⟩)]
  heapF := [(1, ⟨some 1, (), (), 1⟩), (2, ⟨some 4, (), (), 2⟩)]
  edges := [1, 2, 3, 4, 5, 6]
  vertices := [1, 2, 3]
  faces := [1, 2]
  cur_edge_id := 6
  cur_vert_id := 3
  cur_face_id := 2

/-- Witness mesh for the valence check: vertex 1 has four incident outgoing
edges 1, 2, 3, 4, circled via their pairs 5, 6, 7, 8. -/
def val4Mesh : HalfEdgeMesh Unit Unit where
  heapE := [(1, ⟨none, some 5, some 1, none, 1⟩),
            (2, ⟨none, some 6, some 1, none, 2⟩),
            (3, ⟨none, some 7, some 1, none, 3⟩),
            (4, ⟨none, some 8, some 1, none, 4⟩),
            (5, ⟨some 2, some 1, none, none, 5⟩),
            (6, ⟨some 3, some 2, none, none, 6⟩),
            (7, ⟨some 4, some 3, none, none, 7⟩),
            (8, ⟨some 1, some 4, none, none, 8⟩)]
  heapV := [(1, ⟨some 1, (), 1⟩)]
  heapF := []
  edges := [1, 2, 3, 4, 5, 6, 7, 8]
  vertices := [1]
  faces := []
  cur_edge_id := 8
  cur_vert_id := 1
  cur_face_id := 0

/-!
Lemmas about the association-list and table primitives.
-/

theorem alookup_aset_self {κ α : Type} [DecidableEq κ] (l : List (κ × α)) (k : κ) (v : α) :
    alookup (aset l k v) k = some v := by
  induction l with
  | nil => simp [aset, alookup]
  | cons p t ih =>
    obtain ⟨a, b⟩ := p
    by_cases h : a = k <;> simp [aset, alookup, h, ih]

theorem alookup_aset_ne {κ α : Type} [DecidableEq κ] (l : List (κ × α)) (k i : κ) (v : α)
    (h : k ≠ i) : alookup (aset l k v) i = alookup l i := by
  induction l with
  | nil => simp [aset, alookup, h]
  | cons p t ih =>
    obtain ⟨a, b⟩ := p
    by_cases ha : a = k
    · subst ha; simp [aset, alookup, h]
    · simp [aset, alookup, ha, ih]

theorem alookup_aupdate_self {κ α : Type} [DecidableEq κ] (l : List (κ × α)) (k : κ)
    (f : α → α) : alookup (aupdate l k f) k = (alookup l k).map f := by
  induction l with
  | nil => simp [aupdate, alookup]
  | cons p t ih =>
    obtain ⟨a, b⟩ := p
    by_cases h : a = k <;> simp [aupdate, alookup, h, ih]

theorem alookup_aupdate_ne {κ α : Type} [DecidableEq κ] (l : List (κ × α)) (k i : κ)
    (f : α → α) (h : k ≠ i) : alookup (aupdate l k f) i = alookup l i := by
  induction l with
  | nil => simp [aupdate, alookup]
  | cons p t ih =>
    obtain ⟨a, b⟩ := p
    by_cases ha : a = k
    · subst ha; simp [aupdate, alookup, h]
    · simp [aupdate, alookup, ha, ih]

theorem alookup_mapSnd {κ α β : Type} [DecidableEq κ] (f : α → β) (l : List (κ × α)) (k : κ) :
    alookup (mapSnd f l) k = (alookup l k).map f := by
  induction l with
  | nil => simp [mapSnd, alookup]
  | cons p t ih =>
    obtain ⟨a, b⟩ := p
    by_cases h : a = k
    · simp [mapSnd, alookup, h]
    · simpa [mapSnd, alookup, h] using ih

theorem mapSnd_nil {κ α β : Type} (f : α → β) : mapSnd (κ := κ) f [] = [] := rfl

theorem mapSnd_cons {κ α β : Type} (f : α → β) (p : κ × α) (t : List (κ × α)) :
    mapSnd f (p :: t) = (p.1, f p.2) :: mapSnd f t := rfl

theorem mapSnd_aupdate_congr {κ α β : Type} [DecidableEq κ] (f : α → β) (g : α → α)
    (l : List (κ × α)) (k : κ) (h : ∀ a, f (g a) = f a) :
    mapSnd f (aupdate l k g) = mapSnd f l := by
  induction l with
  | nil => rfl
  | cons p t ih =>
    obtain ⟨a, b⟩ := p
    by_cases ha : a = k <;> simp [aupdate, ha, mapSnd_cons, ih, h]

theorem length_aset_of_isSome {κ α : Type} [DecidableEq κ] (l : List (κ × α)) (k : κ)
    (v : α) (h : (alookup l k).isSome) : (aset l k v).length = l.length := by
  induction l with
  | nil => simp [alookup] at h
  | cons p t ih =>
    obtain ⟨a, b⟩ := p
    by_cases ha : a = k
    · simp [aset, ha]
    · simp [alookup, ha] at h
      simp [aset, ha, ih h]

theorem length_aset_of_none {κ α : Type} [DecidableEq κ] (l : List (κ × α)) (k : κ)
    (v : α) (h : alookup l k = none) : (aset l k v).length = l.length + 1 := by
  induction l with
  | nil => simp [aset]
  | cons p t ih =>
    obtain ⟨a, b⟩ := p
    by_cases ha : a = k
    · simp [alookup, ha] at h
    · simp [alookup, ha] at h
      simp [aset, ha, ih h]

theorem alookup_aset_isSome {κ α : Type} [DecidableEq κ] (l : List (κ × α)) (k i : κ)
    (v : α) (h : (alookup l i).isSome) : (alookup (aset l k v) i).isSome := by
  by_cases hk : k = i
  · subst hk; simp [alookup_aset_self]
  · rwa [alookup_aset_ne l k i v hk]

theorem alookup_aupdate_isSome {κ α : Type} [DecidableEq κ] (l : List (κ × α)) (k i : κ)
    (f : α → α) (h : (alookup l i).isSome) : (alookup (aupdate l k f) i).isSome := by
  by_cases hk : k = i
  · subst hk
    rw [alookup_aupdate_self]
    cases halt : alookup l k with
    | none => rw [halt] at h; simp at h
    | some a => simp
  · rwa [alookup_aupdate_ne l k i f hk]

theorem mem_insertId (l : List Nat) (i j : Nat) :
    j ∈ insertId l i ↔ j ∈ l ∨ j = i := by
  unfold insertId
  by_cases h : i ∈ l
  · simp only [if_pos h]
    constructor
    · exact Or.inl
    · rintro (hj | rfl) <;> [exact hj; exact h]
  · simp [if_neg h, List.mem_append]

theorem length_insertId_of_mem (l : List Nat) (i : Nat) (h : i ∈ l) :
    (insertId l i).length = l.length := by
  simp [insertId, h]

theorem length_insertId_of_not_mem (l : List Nat) (i : Nat) (h : i ∉ l) :
    (insertId l i).length = l.length + 1 := by
  simp [insertId, h]

/-!
The easy claims: the empty-removal-set error path of attach_point_for_faces,
the valence-3 check of remove_vert, the stale-handle asymmetry of the two
_ptr wrappers, and the concrete counterexample and demonstration runs.
-/

set_option maxRecDepth 100000

/-- C7: for every mesh, attach_point_for_faces with an empty removal-faces
list returns the "No horizon edges found" error and leaves the mesh (all
three entity tables, the heaps, the id counters) exactly unchanged. -/
theorem attach_empty_removal_unchanged {Pt Vec3 : Type} (g : GeomOps Pt Vec3) (p : Pt)
    (m : HalfEdgeMesh Pt Vec3) :
    attach_point_for_faces g p [] m = (m, .error "No horizon edges found") := rfl

/-- Concrete run of the C7 theorem. -/
theorem attach_empty_removal_unchanged_witness :
    attach_point_for_faces uOps () [] triMesh = (triMesh, .error "No horizon edges found") :=
  attach_empty_removal_unchanged uOps () triMesh

/-- C6: remove_vert on a vertex whose incident-edge walk does not yield
exactly 3 edges returns the "Vertex must have exactly 3 connecting edges"
error and leaves the mesh completely unchanged. -/
theorem remove_vert_requires_valence_three {Pt Vec3 : Type} (g : GeomOps Pt Vec3)
    (m : HalfEdgeMesh Pt Vec3) (vid : Nat) (v : Vert Pt)
    (hv : alookup m.heapV vid = some v)
    (hlen : (vert_adjacent_edges m.heapE v).length ≠ 3) :
    remove_vert g m vid = (m, .error "Vertex must have exactly 3 connecting edges") := by
  unfold remove_vert
  rw [hv]
  simp only [List.length_reverse]
  rw [if_pos hlen]

/-- Concrete run of the C6 theorem on a vertex with 4 incident edges. -/
theorem remove_vert_requires_valence_three_witness :
    alookup val4Mesh.heapV 1 = some ⟨some 1, (), 1⟩ ∧
    (vert_adjacent_edges val4Mesh.heapE ⟨some 1, (), 1⟩).length = 4 ∧
    remove_vert uOps val4Mesh 1 =
      (val4Mesh, .error "Vertex must have exactly 3 connecting edges") :=
  ⟨rfl, rfl, remove_vert_requires_valence_three uOps val4Mesh 1 ⟨some 1, (), 1⟩ rfl
    (by decide)⟩

/-- C10: a face handle that fails to upgrade makes triangulate_face_ptr return
normally with the mesh untouched, while a vertex handle that fails to upgrade
makes remove_vert_ptr return the "Provided pointer was invalid" error. -/
theorem stale_handle_asymmetry {Pt Vec3 : Type} (g : GeomOps Pt Vec3) (p : Pt)
    (m : HalfEdgeMesh Pt Vec3) (fp vp : Option Nat)
    (hf : upgKey m.heapF fp = none) (hv : upgKey m.heapV vp = none) :
    triangulate_face_ptr g p fp m = .ok m ∧
    remove_vert_ptr g m vp = (m, .error "Provided pointer was invalid") := by
  constructor
  · unfold triangulate_face_ptr; rw [hf]
  · unfold remove_vert_ptr; rw [hv]

/-- Concrete run of the C10 theorem on an empty mesh and dangling handles. -/
theorem stale_handle_asymmetry_witness :
    triangulate_face_ptr uOps () (some 1) HalfEdgeMesh.empty = .ok HalfEdgeMesh.empty ∧
    remove_vert_ptr uOps HalfEdgeMesh.empty (some 1) =
      (HalfEdgeMesh.empty, .error "Provided pointer was invalid") :=
  stale_handle_asymmetry uOps () HalfEdgeMesh.empty (some 1) (some 1) rfl rfl

/-- C2 counterexample: subdividing the registered triangular face of a
one-triangle mesh grows the edge table from 3 to 9 entries (+6 half-edges),
not the +2 the claim states (vertices and faces do change by +1 and +2). -/
theorem triangulate_face_edge_count_cex :
    (triangulate_face uOps () 1 triMesh).map
      (fun m => (m.vertices.length, m.edges.length, m.faces.length)) = .ok (4, 9, 3) ∧
    triMesh.edges.length + 2 ≠ 9 := ⟨rfl, by decide⟩

/-- C3 counterexample: on cexMeshB, connect_pairs returns the "Could not find
pair edge" error, yet edge 1's pair link was already changed from empty to
edge 2 — the error return is not mutation-free. -/
theorem connect_pairs_mutation_cex :
    (connect_pairs cexMeshB).2 = .error "Could not find pair edge" ∧
    (alookup (connect_pairs cexMeshB).1.heapE 1).map (fun e => e.pair) = some (some 2) ∧
    (alookup cexMeshB.heapE 1).map (fun e => e.pair) = some none := ⟨rfl, rfl, rfl⟩

/-- C1 counterexample: on cexMeshA, attach_point_for_faces returns the
malformed-horizon error, yet vertex 1's incident-edge pointer was already
redirected from edge 3 to horizon edge 1 — the mesh is not exactly as it was. -/
theorem attach_malformed_mutation_cex :
    (attach_point_for_faces uOps () [1] cexMeshA).2 =
      .error "Horizon is malformed - it does not form a connected loop" ∧
    (alookup (attach_point_for_faces uOps () [1] cexMeshA).1.heapV 1).map
      (fun v => v.edge) = some (some 1) ∧
    (alookup cexMeshA.heapV 1).map (fun v => v.edge) = some (some 3) := ⟨rfl, rfl, rfl⟩

/-- C9: the constructors return a mesh with no error channel for pair
reconstruction: building a single open triangle through from_face_vertex_mesh
yields a mesh (connect's failure is only printed) whose three edges all have
unresolvable pair links and on which the pairing verifier fails, while the
tetrahedron and octahedron constructors likewise return plain meshes. -/
theorem constructors_swallow_connect_error :
    (from_face_vertex_mesh uOps [(), (), ()] [(0, 1, 2)]).map (fun msh =>
      (msh.edges.length,
       msh.edges.all (fun i =>
         ((alookup msh.heapE i).map (fun e => (upg msh.heapE e.pair).isNone)).getD false),
       are_edge_pairs_valid msh)) =
    .ok (3, true, .error "Could not find a pair edge") ∧
    (from_tetrahedron_pts uOps () () () ()).toOption.isSome = true ∧
    (from_octahedron_pts uOps () () () () () ()).toOption.isSome = true := ⟨rfl, rfl, rfl⟩

/-!
Frame lemmas for connect_pairs: the algorithm writes nothing but pair links.
-/

theorem pairFrame_refl {Pt Vec3 : Type} (m : HalfEdgeMesh Pt Vec3) : PairFrame m m :=
  ⟨rfl, rfl, rfl, rfl, rfl, rfl, rfl, rfl, rfl⟩

theorem pairFrame_trans {Pt Vec3 : Type} {a b c : HalfEdgeMesh Pt Vec3}
    (h1 : PairFrame a b) (h2 : PairFrame b c) : PairFrame a c :=
  ⟨h2.1.trans h1.1, h2.2.1.trans h1.2.1, h2.2.2.1.trans h1.2.2.1,
   h2.2.2.2.1.trans h1.2.2.2.1, h2.2.2.2.2.1.trans h1.2.2.2.2.1,
   h2.2.2.2.2.2.1.trans h1.2.2.2.2.2.1, h2.2.2.2.2.2.2.1.trans h1.2.2.2.2.2.2.1,
   h2.2.2.2.2.2.2.2.1.trans h1.2.2.2.2.2.2.2.1,
   h2.2.2.2.2.2.2.2.2.trans h1.2.2.2.2.2.2.2.2⟩

/-- A pair-only heap update is invisible to the pair-free shape projection. -/
theorem pairFrame_updE_pair {Pt Vec3 : Type} (m : HalfEdgeMesh Pt Vec3) (i j : Nat) :
    PairFrame m (m.updE i (fun e2 => { e2 with pair := some j })) := by
  refine ⟨rfl, rfl, rfl, rfl, rfl, rfl, rfl, rfl, ?_⟩
  exact mapSnd_aupdate_congr eShape _ m.heapE i (fun a => rfl)

theorem connectLoop_pairFrame {Pt Vec3 : Type} (hash : List ((Nat × Nat) × Nat)) :
    ∀ (l : List Nat) (m : HalfEdgeMesh Pt Vec3), PairFrame m (connectLoop hash l m).1 := by
  intro l
  induction l with
  | nil => intro m; exact pairFrame_refl m
  | cons i rest ih =>
    intro m
    unfold connectLoop
    split
    · exact pairFrame_refl m
    · split
      · exact ih m
      · split
        · split
          · exact pairFrame_trans
              (pairFrame_trans (pairFrame_updE_pair _ _ _) (pairFrame_updE_pair _ _ _)) (ih _)
          · exact pairFrame_refl m
        · exact pairFrame_refl m

theorem connect_pairs_pairFrame {Pt Vec3 : Type} (m : HalfEdgeMesh Pt Vec3) :
    PairFrame m (connect_pairs m).1 := by
  unfold connect_pairs
  cases hb : buildEdgeHash m.heapE m.heapV m.edges [] with
  | error s => exact pairFrame_refl m
  | ok hash => exact connectLoop_pairFrame hash m.edges m

/-- C3 amended: whenever connect_pairs returns an error, the edge, vertex and
face tables, the vertex and face heaps, the id counters, and every edge's
next, origin, face and id are unchanged; only pair links (installed in mutual
couples before the failing edge was reached) may differ. -/
theorem connect_pairs_error_frame {Pt Vec3 : Type} (m m2 : HalfEdgeMesh Pt Vec3)
    (s : String) (h : connect_pairs m = (m2, .error s)) : PairFrame m m2 := by
  have hf := connect_pairs_pairFrame m
  rw [h] at hf
  exact hf

/-- Concrete run of the C3 amended theorem on the counterexample mesh. -/
theorem connect_pairs_error_frame_witness :
    connect_pairs cexMeshB = ((connect_pairs cexMeshB).1, .error "Could not find pair edge") ∧
    PairFrame cexMeshB (connect_pairs cexMeshB).1 :=
  ⟨rfl, connect_pairs_error_frame cexMeshB _ "Could not find pair edge" rfl⟩

/-!
Frame lemmas for the pre-commit part of attach_point_for_faces: the
classification scan writes nothing but vertices' incident-edge pointers.
-/

theorem vertFrame_refl {Pt Vec3 : Type} (m : HalfEdgeMesh Pt Vec3) : VertFrame m m :=
  ⟨rfl, rfl, rfl, rfl, rfl, rfl, rfl, rfl, rfl⟩

theorem vertFrame_trans {Pt Vec3 : Type} {a b c : HalfEdgeMesh Pt Vec3}
    (h1 : VertFrame a b) (h2 : VertFrame b c) : VertFrame a c :=
  ⟨h2.1.trans h1.1, h2.2.1.trans h1.2.1, h2.2.2.1.trans h1.2.2.1,
   h2.2.2.2.1.trans h1.2.2.2.1, h2.2.2.2.2.1.trans h1.2.2.2.2.1,
   h2.2.2.2.2.2.1.trans h1.2.2.2.2.2.1, h2.2.2.2.2.2.2.1.trans h1.2.2.2.2.2.2.1,
   h2.2.2.2.2.2.2.2.1.trans h1.2.2.2.2.2.2.2.1,
   h2.2.2.2.2.2.2.2.2.trans h1.2.2.2.2.2.2.2.2⟩

/-- An incident-edge-pointer update is invisible to the (pos, id) projection. -/
theorem vertFrame_updV_edge {Pt Vec3 : Type} (m : HalfEdgeMesh Pt Vec3) (i : Nat)
    (p : Option Nat) : VertFrame m (m.updV i (fun v => { v with edge := p })) := by
  refine ⟨rfl, rfl, rfl, rfl, rfl, rfl, rfl, rfl, ?_⟩
  exact mapSnd_aupdate_congr _ _ m.heapV i (fun a => rfl)

theorem attachClassifyEdges_vertFrame {Pt Vec3 : Type} (outIds : List Nat) :
    ∀ (l : List Nat) (m : HalfEdgeMesh Pt Vec3) (sc : AttachScan),
      VertFrame m (attachClassifyEdges outIds l m sc).1 := by
  intro l
  induction l with
  | nil => intro m sc; exact vertFrame_refl m
  | cons eid rest ih =>
    intro m sc
    simp only [attachClassifyEdges]
    cases halook : alookup m.heapE eid with
    | none => exact ih m sc
    | some fe =>
      cases hrem : (((upg m.heapE fe.pair).bind (fun p => upg m.heapF p.face)).map
          (fun f => outIds.contains f.id)).getD true with
      | true =>
        dsimp only
        rw [hrem, if_pos rfl]
        exact ih m _
      | false =>
        dsimp only
        rw [hrem, if_neg (by simp)]
        cases ho : fe.origin with
        | none => exact ih m _
        | some oid =>
          exact vertFrame_trans (vertFrame_updV_edge m oid (some eid)) (ih _ _)

theorem attachScanFaces_vertFrame {Pt Vec3 : Type} (outIds : List Nat) :
    ∀ (l : List Nat) (m : HalfEdgeMesh Pt Vec3) (sc : AttachScan),
      VertFrame m (attachScanFaces outIds l m sc).1 := by
  intro l
  induction l with
  | nil => intro m sc; exact vertFrame_refl m
  | cons fid rest ih =>
    intro m sc
    simp only [attachScanFaces]
    cases hf : alookup m.heapF fid with
    | none => exact ih m sc
    | some f =>
      have hcl := attachClassifyEdges_vertFrame outIds (face_adjacent_edges m.heapE f) m sc
      rcases hce : attachClassifyEdges outIds (face_adjacent_edges m.heapE f) m sc
        with ⟨m1, sc1⟩
      rw [hce] at hcl
      dsimp only
      rw [hce]
      exact vertFrame_trans hcl (ih m1 _)

/-!
The error strings reachable from attach_point_for_faces' post-check branches
all differ from the malformed-horizon message, so that message identifies the
closed-loop check.
-/

theorem compute_attrs_error_str {Pt Vec3 : Type} (g : GeomOps Pt Vec3)
    (hE : List (Nat × Edge)) (hV : List (Nat × Vert Pt)) (f : Face Pt Vec3) (s : String)
    (h : compute_attrs g hE hV f = .error s) :
    s = "panic: index out of bounds in compute_attrs" := by
  unfold compute_attrs at h
  dsimp only at h
  split at h
  · exact absurd h (by simp)
  · injection h with h2
    exact h2.symm

theorem push_face_error_str {Pt Vec3 : Type} (g : GeomOps Pt Vec3)
    (m : HalfEdgeMesh Pt Vec3) (i : Nat) (s : String)
    (h : m.push_face g i = .error s) :
    s = "panic: face allocation is gone" ∨ s = "panic: index out of bounds in compute_attrs" := by
  unfold HalfEdgeMesh.push_face at h
  split at h
  · injection h with h2
    exact Or.inl h2.symm
  · split at h
    · rename_i s2 hs2
      injection h with h2
      exact Or.inr (h2 ▸ compute_attrs_error_str _ _ _ _ _ hs2)
    · exact absurd h (by simp)

theorem attachHorizonVec_error_str {Pt Vec3 : Type} (m : HalfEdgeMesh Pt Vec3)
    (succ : List (Nat × Nat)) (startId : Nat) :
    ∀ (fuel : Nat) (it : Nat) (acc : List Nat) (s : String),
      attachHorizonVec m succ startId it fuel acc = .error s →
      s ≠ "Horizon is malformed - it does not form a connected loop" := by
  intro fuel
  induction fuel with
  | zero =>
    intro it acc s h
    unfold attachHorizonVec at h
    injection h with h2
    subst h2; decide
  | succ n ih =>
    intro it acc s h
    unfold attachHorizonVec at h
    split at h
    · dsimp only at h
      split at h
      · injection h with h2
        subst h2; decide
      · split at h
        · exact absurd h (by simp)
        · exact ih _ _ _ h
    · injection h with h2
      subst h2; decide

theorem attachBuildLoop_error_str {Pt Vec3 : Type} (g : GeomOps Pt Vec3) (apexId : Nat)
    (hvec : List Nat) (hlen : Nat) :
    ∀ (l : List Nat) (idx : Nat) (m : HalfEdgeMesh Pt Vec3) (ret : List Nat)
      (m2 : HalfEdgeMesh Pt Vec3) (s : String),
      attachBuildLoop g apexId hvec hlen l idx m ret = (m2, .error s) →
      s ≠ "Horizon is malformed - it does not form a connected loop" := by
  intro l
  induction l with
  | nil =>
    intro idx m ret m2 s h
    unfold attachBuildLoop at h
    exact absurd ((Prod.mk.injEq ..).mp h).2 (by simp)
  | cons baseId rest ih =>
    intro idx m ret m2 s h
    unfold attachBuildLoop at h
    split at h
    · obtain ⟨-, h2⟩ := (Prod.mk.injEq ..).mp h
      injection h2 with h3
      subst h3; decide
    · split at h
      · obtain ⟨-, h2⟩ := (Prod.mk.injEq ..).mp h
        injection h2 with h3
        subst h3; decide
      · split at h
        · obtain ⟨-, h2⟩ := (Prod.mk.injEq ..).mp h
          injection h2 with h3
          subst h3; decide
        · dsimp only [HalfEdgeMesh.new_face_id, HalfEdgeMesh.new_edge_id,
            HalfEdgeMesh.allocE, HalfEdgeMesh.allocF, HalfEdgeMesh.updE, HalfEdgeMesh.updV,
            HalfEdgeMesh.push_edge] at h
          split at h
          · rename_i s2 hs2
            obtain ⟨-, h2⟩ := (Prod.mk.injEq ..).mp h
            injection h2 with h3
            subst h3
            rcases push_face_error_str _ _ _ _ hs2 with h3 | h3 <;> (subst h3; decide)
          · exact ih _ _ _ _ _ h

theorem attachPairLoop_error_str {Pt Vec3 : Type} (hvec : List Nat) (hlen : Nat) :
    ∀ (l : List Nat) (idx : Nat) (m : HalfEdgeMesh Pt Vec3)
      (m2 : HalfEdgeMesh Pt Vec3) (s : String),
      attachPairLoop hvec hlen l idx m = (m2, .error s) →
      s ≠ "Horizon is malformed - it does not form a connected loop" := by
  intro l
  induction l with
  | nil =>
    intro idx m m2 s h
    unfold attachPairLoop at h
    exact absurd ((Prod.mk.injEq ..).mp h).2 (by simp)
  | cons baseId rest ih =>
    intro idx m m2 s h
    unfold attachPairLoop at h
    split at h
    · obtain ⟨-, h2⟩ := (Prod.mk.injEq ..).mp h
      injection h2 with h3
      subst h3; decide
    · dsimp only at h
      split at h
      · exact ih _ _ _ _ h
      · obtain ⟨-, h2⟩ := (Prod.mk.injEq ..).mp h
        injection h2 with h3
        subst h3; decide

/-- C1 amended: when attach_point_for_faces fails the closed-loop check (the
malformed-horizon error), the three entity tables, the edge and face heaps and
the id counters are exactly as before the call, and every vertex keeps its
position and identity; only vertices' incident-edge pointers may have been
redirected (to a horizon edge) by the classification scan. -/
theorem attach_malformed_frame {Pt Vec3 : Type} (g : GeomOps Pt Vec3) (p : Pt)
    (fs : List Nat) (m m2 : HalfEdgeMesh Pt Vec3)
    (h : attach_point_for_faces g p fs m =
      (m2, .error "Horizon is malformed - it does not form a connected loop")) :
    VertFrame m m2 := by
  unfold attach_point_for_faces at h
  dsimp only at h
  have hsc := attachScanFaces_vertFrame
    (fs.filterMap (fun i => (alookup m.heapF i).map (fun f => f.id))) fs m AttachScan.init
  rcases hres : attachScanFaces
      (fs.filterMap (fun i => (alookup m.heapF i).map (fun f => f.id))) fs m AttachScan.init
    with ⟨m1, sc⟩
  rw [hres] at hsc
  rw [hres] at h
  dsimp only at h
  cases hie : sc.iter_edge with
  | none =>
    rw [hie] at h
    obtain ⟨-, h2⟩ := (Prod.mk.injEq ..).mp h
    injection h2 with h3
    exact absurd h3 (by decide)
  | some se =>
    rw [hie] at h
    dsimp only at h
    split at h
    · split at h
      · rename_i s2 hs2
        obtain ⟨-, h2⟩ := (Prod.mk.injEq ..).mp h
        injection h2 with h3
        exact absurd h3 (attachHorizonVec_error_str _ _ _ _ _ _ _ hs2)
      · dsimp only [HalfEdgeMesh.new_vert_id, HalfEdgeMesh.allocV,
          HalfEdgeMesh.push_vert] at h
        split at h
        · rename_i s2 hs2
          obtain ⟨-, h2⟩ := (Prod.mk.injEq ..).mp h
          injection h2 with h3
          exact absurd h3 (attachBuildLoop_error_str _ _ _ _ _ _ _ _ _ _ hs2)
        · split at h
          · rename_i s2 hs2
            obtain ⟨-, h2⟩ := (Prod.mk.injEq ..).mp h
            injection h2 with h3
            exact absurd h3 (attachPairLoop_error_str _ _ _ _ _ _ _ hs2)
          · exact absurd ((Prod.mk.injEq ..).mp h).2 (by simp)
    · obtain ⟨h1, -⟩ := (Prod.mk.injEq ..).mp h
      exact h1 ▸ hsc

/-!
Skeleton transfer: every operation commutes with erasing geometry, because no
algorithm branches on geometry.  This turns claims about meshes built from
arbitrary points into computations on the Unit instance.
-/

theorem mapSnd_def {κ α β : Type} (f : α → β) (l : List (κ × α)) :
    mapSnd f l = List.map (fun p => (p.1, f p.2)) l := rfl

theorem aset_mapSnd {κ α β : Type} [DecidableEq κ] (f : α → β) (l : List (κ × α)) (k : κ)
    (v : α) : aset (mapSnd f l) k (f v) = mapSnd f (aset l k v) := by
  induction l with
  | nil => rfl
  | cons p t ih =>
    obtain ⟨a, b⟩ := p
    simp only [mapSnd_def] at ih ⊢
    by_cases h : a = k <;> simp [aset, h, ih]

theorem aupdate_mapSnd {κ α β : Type} [DecidableEq κ] (f : α → β) (g : α → α) (g2 : β → β)
    (l : List (κ × α)) (k : κ) (h : ∀ a, f (g a) = g2 (f a)) :
    aupdate (mapSnd f l) k g2 = mapSnd f (aupdate l k g) := by
  induction l with
  | nil => rfl
  | cons p t ih =>
    obtain ⟨a, b⟩ := p
    simp only [mapSnd_def] at ih ⊢
    by_cases ha : a = k <;> simp [aupdate, ha, ih, h]

theorem upg_mapSnd {α β : Type} (f : α → β) (h : List (Nat × α)) (p : Option Nat) :
    upg (mapSnd f h) p = (upg h p).map f := by
  cases p with
  | none => rfl
  | some i => simp [upg, alookup_mapSnd]

theorem upgKey_mapSnd {α β : Type} (f : α → β) (h : List (Nat × α)) (p : Option Nat) :
    upgKey (mapSnd f h) p = upgKey h p := by
  cases p with
  | none => rfl
  | some i =>
    simp only [upgKey, Option.bind_some, alookup_mapSnd]
    cases alookup h i <;> simp

theorem toPtrVec_mapSnd {α β : Type} (f : α → β) (h : List (Nat × α))
    (ptrs : List (Option Nat)) : toPtrVec (mapSnd f h) ptrs = toPtrVec h ptrs := by
  unfold toPtrVec
  induction ptrs with
  | nil => rfl
  | cons p t ih => simp [upgKey_mapSnd, ih]

theorem filterMap_alookup_mapSnd {α β : Type} (f : α → β) (h : List (Nat × α))
    (l : List Nat) : l.filterMap (alookup (mapSnd f h)) = (l.filterMap (alookup h)).map f := by
  induction l with
  | nil => rfl
  | cons i t ih =>
    simp only [List.filterMap_cons, alookup_mapSnd]
    cases alookup h i <;> simp [ih]

theorem vert_ab_key_mapVert {Pt : Type} (hE : List (Nat × Edge))
    (hV : List (Nat × Vert Pt)) (e : Edge) :
    vert_ab_key hE (mapSnd mapVert hV) e = vert_ab_key hE hV e := by
  unfold vert_ab_key
  rw [upg_mapSnd]
  have h2 : (upg hE e.next).bind (fun n => upg (mapSnd mapVert hV) n.origin) =
      ((upg hE e.next).bind (fun n => upg hV n.origin)).map mapVert := by
    cases upg hE e.next with
    | none => rfl
    | some n => simp [upg_mapSnd]
  rw [h2]
  cases upg hV e.origin <;> cases (upg hE e.next).bind (fun n => upg hV n.origin) <;>
    simp [mapVert]

theorem vert_ba_key_mapVert {Pt : Type} (hE : List (Nat × Edge))
    (hV : List (Nat × Vert Pt)) (e : Edge) :
    vert_ba_key hE (mapSnd mapVert hV) e = vert_ba_key hE hV e := by
  unfold vert_ba_key
  rw [vert_ab_key_mapVert]

theorem buildEdgeHash_skeleton {Pt : Type} (hE : List (Nat × Edge))
    (hV : List (Nat × Vert Pt)) :
    ∀ (l : List Nat) (acc : List ((Nat × Nat) × Nat)),
      buildEdgeHash hE (mapSnd mapVert hV) l acc = buildEdgeHash hE hV l acc := by
  intro l
  induction l with
  | nil => intro acc; rfl
  | cons i rest ih =>
    intro acc
    unfold buildEdgeHash
    cases alookup hE i with
    | none => rfl
    | some e =>
      dsimp only
      rw [vert_ab_key_mapVert]
      cases vert_ab_key hE hV e with
      | none => rfl
      | some key => exact ih _

theorem connectLoop_skeleton {Pt Vec3 : Type} (hash : List ((Nat × Nat) × Nat)) :
    ∀ (l : List Nat) (m : HalfEdgeMesh Pt Vec3),
      connectLoop hash l (skeleton m) =
        (skeleton (connectLoop hash l m).1, (connectLoop hash l m).2) := by
  intro l
  induction l with
  | nil => intro m; rfl
  | cons i rest ih =>
    intro m
    unfold connectLoop
    rw [show (skeleton m).heapE = m.heapE from rfl,
        show (skeleton m).heapV = mapSnd mapVert m.heapV from rfl]
    cases he : alookup m.heapE i with
    | none => rfl
    | some e =>
      dsimp only
      cases hv : ptrIsValid m.heapE e.pair with
      | true => exact ih m
      | false =>
        rw [vert_ba_key_mapVert]
        cases vert_ba_key m.heapE m.heapV e with
        | none => rfl
        | some key =>
          dsimp only
          cases alookup hash key with
          | none => rfl
          | some j =>
            exact ih ((m.updE i (fun e2 => { e2 with pair := some j })).updE j
              (fun e2 => { e2 with pair := some i }))

theorem pairsCheckLoop_skeleton {Pt Vec3 : Type} (m : HalfEdgeMesh Pt Vec3)
    (hash : List ((Nat × Nat) × Nat)) :
    ∀ (l : List Nat), pairsCheckLoop (skeleton m) hash l = pairsCheckLoop m hash l := by
  intro l
  induction l with
  | nil => rfl
  | cons i rest ih =>
    unfold pairsCheckLoop
    rw [show (skeleton m).heapE = m.heapE from rfl,
        show (skeleton m).heapV = mapSnd mapVert m.heapV from rfl]
    cases alookup m.heapE i with
    | none => rfl
    | some e =>
      dsimp only
      rw [vert_ba_key_mapVert]
      cases vert_ba_key m.heapE m.heapV e with
      | none => rfl
      | some key =>
        dsimp only
        cases alookup hash key with
        | none => rfl
        | some j =>
          dsimp only
          cases alookup m.heapE j with
          | none => rfl
          | some p =>
            dsimp only
            split
            · rfl
            · exact ih

theorem connect_pairs_skeleton {Pt Vec3 : Type} (m : HalfEdgeMesh Pt Vec3) :
    connect_pairs (skeleton m) =
      (skeleton (connect_pairs m).1, (connect_pairs m).2) := by
  unfold connect_pairs
  rw [show (skeleton m).heapV = mapSnd mapVert m.heapV from rfl,
      show (skeleton m).heapE = m.heapE from rfl,
      show (skeleton m).edges = m.edges from rfl, buildEdgeHash_skeleton]
  cases buildEdgeHash m.heapE m.heapV m.edges [] with
  | error s => rfl
  | ok hash => exact connectLoop_skeleton hash m.edges m

theorem are_edge_pairs_valid_skeleton {Pt Vec3 : Type} (m : HalfEdgeMesh Pt Vec3) :
    are_edge_pairs_valid (skeleton m) = are_edge_pairs_valid m := by
  unfold are_edge_pairs_valid
  rw [show (skeleton m).heapV = mapSnd mapVert m.heapV from rfl,
      show (skeleton m).heapE = m.heapE from rfl,
      show (skeleton m).edges = m.edges from rfl, buildEdgeHash_skeleton]
  cases buildEdgeHash m.heapE m.heapV m.edges [] with
  | error s => rfl
  | ok hash => exact pairsCheckLoop_skeleton m hash m.edges

theorem mapFace_with_edge {Pt Vec3 : Type} (g : GeomOps Pt Vec3) (i : Nat) (p : Option Nat) :
    mapFace (Face.with_edge g i p) = Face.with_edge uOps i p := rfl

theorem mapFace_id {Pt Vec3 : Type} (f : Face Pt Vec3) : (mapFace f).id = f.id := rfl

theorem compute_attrs_skeleton {Pt Vec3 : Type} (g : GeomOps Pt Vec3)
    (hE : List (Nat × Edge)) (hV : List (Nat × Vert Pt)) (f : Face Pt Vec3) :
    compute_attrs uOps hE (mapSnd mapVert hV) (mapFace f) =
      (compute_attrs g hE hV f).map mapFace := by
  unfold compute_attrs
  dsimp only
  have hids : face_adjacent_verts hE (mapSnd mapVert hV) (mapFace f) =
      face_adjacent_verts hE hV f := by
    unfold face_adjacent_verts
    rw [toPtrVec_mapSnd]
    rfl
  rw [hids, filterMap_alookup_mapSnd]
  rcases (face_adjacent_verts hE hV f).filterMap (alookup hV) with
    _ | ⟨v0, _ | ⟨v1, _ | ⟨v2, rest⟩⟩⟩ <;> rfl

theorem push_face_skeleton {Pt Vec3 : Type} (g : GeomOps Pt Vec3)
    (m : HalfEdgeMesh Pt Vec3) (i : Nat) :
    (skeleton m).push_face uOps i = (m.push_face g i).map skeleton := by
  unfold HalfEdgeMesh.push_face
  rw [show (skeleton m).heapF = mapSnd mapFace m.heapF from rfl, alookup_mapSnd]
  cases hf : alookup m.heapF i with
  | none => rfl
  | some f =>
    dsimp only [Option.map]
    rw [show (skeleton m).heapE = m.heapE from rfl,
        show (skeleton m).heapV = mapSnd mapVert m.heapV from rfl,
        compute_attrs_skeleton g]
    cases hc : compute_attrs g m.heapE m.heapV f with
    | error s => rfl
    | ok f2 =>
      dsimp only [Except.map]
      rw [aset_mapSnd]
      rfl

theorem make_triangle_skeleton {Pt Vec3 : Type} (g : GeomOps Pt Vec3)
    (m : HalfEdgeMesh Pt Vec3) (p1 p2 p3 : Nat) :
    (skeleton m).make_triangle uOps p1 p2 p3 =
      (m.make_triangle g p1 p2 p3).map (fun r => (skeleton r.1, r.2)) := by
  unfold HalfEdgeMesh.make_triangle
  dsimp only [HalfEdgeMesh.new_edge_id, HalfEdgeMesh.new_face_id, HalfEdgeMesh.allocE,
    HalfEdgeMesh.allocF, HalfEdgeMesh.updE, HalfEdgeMesh.updV, skeleton]
  generalize wrap32 (m.cur_edge_id + 1) = i1
  generalize wrap32 (i1 + 1) = i2
  generalize wrap32 (i2 + 1) = i3
  generalize wrap32 (m.cur_face_id + 1) = fi
  rw [aupdate_mapSnd mapVert (fun v => { v with edge := some i1 })
        (fun v => { v with edge := some i1 }) m.heapV p1 (fun a => rfl),
      aupdate_mapSnd mapVert (fun v => { v with edge := some i2 })
        (fun v => { v with edge := some i2 }) _ p2 (fun a => rfl),
      aupdate_mapSnd mapVert (fun v => { v with edge := some i3 })
        (fun v => { v with edge := some i3 }) _ p3 (fun a => rfl),
      ← mapFace_with_edge g, mapFace_id, aset_mapSnd, alookup_mapSnd]
  cases hres : alookup
      (aset m.heapF (Face.with_edge g fi (some i1)).id (Face.with_edge g fi (some i1))) fi with
  | none => rfl
  | some f1 =>
    dsimp only [Option.map]
    rw [compute_attrs_skeleton g]
    cases hc : compute_attrs g _ _ f1 with
    | error s => rfl
    | ok f2 =>
      dsimp only [Except.map]
      rw [aset_mapSnd]

theorem except_map_ok {ε α β : Type} (f : α → β) (a : α) :
    Except.map f (Except.ok a : Except ε α) = Except.ok (f a) := rfl

theorem except_map_error {ε α β : Type} (f : α → β) (e : ε) :
    Except.map f (Except.error e : Except ε α) = (Except.error e : Except ε β) := rfl

theorem except_bind_ok {ε α β : Type} (a : α) (f : α → Except ε β) :
    (Except.ok a : Except ε α) >>= f = f a := rfl

theorem except_bind_error {ε α β : Type} (e : ε) (f : α → Except ε β) :
    (Except.error e : Except ε α) >>= f = Except.error e := rfl

theorem except_fmap_ok {ε α β : Type} (f : α → β) (a : α) :
    f <$> (Except.ok a : Except ε α) = Except.ok (f a) := rfl

theorem from_tetrahedron_pts_skeleton {Pt Vec3 : Type} (g : GeomOps Pt Vec3)
    (p1 p2 p3 p4 : Pt) :
    from_tetrahedron_pts uOps () () () () =
      (from_tetrahedron_pts g p1 p2 p3 p4).map skeleton := by
  unfold from_tetrahedron_pts
  dsimp only [HalfEdgeMesh.empty, HalfEdgeMesh.new_vert_id, HalfEdgeMesh.allocV]
  norm_num [wrap32, aset, Vert.empty]
  rw [show (⟨[], [(1, (⟨none, (), 1⟩ : Vert Unit)), (2, ⟨none, (), 2⟩), (3, ⟨none, (), 3⟩),
        (4, ⟨none, (), 4⟩)], [], [], [], [], 0, 4, 0⟩ : HalfEdgeMesh Unit Unit) =
      skeleton (⟨[], [(1, ⟨none, p1, 1⟩), (2, ⟨none, p2, 2⟩), (3, ⟨none, p3, 3⟩),
        (4, ⟨none, p4, 4⟩)], [], [], [], [], 0, 4, 0⟩ : HalfEdgeMesh Pt Vec3) from rfl,
      make_triangle_skeleton g]
  rcases hA : HalfEdgeMesh.make_triangle g
      (⟨[], [(1, ⟨none, p1, 1⟩), (2, ⟨none, p2, 2⟩), (3, ⟨none, p3, 3⟩),
        (4, ⟨none, p4, 4⟩)], [], [], [], [], 0, 4, 0⟩ : HalfEdgeMesh Pt Vec3) 1 2 3
    with s | ⟨mA, triA⟩
  · rfl
  · simp only [except_map_ok, except_bind_ok, except_fmap_ok]
    rw [show (skeleton mA).add_triangle triA = skeleton (mA.add_triangle triA) from rfl,
        make_triangle_skeleton g]
    rcases hB : HalfEdgeMesh.make_triangle g (mA.add_triangle triA) 2 1 4 with s | ⟨mB, triB⟩
    · rfl
    · simp only [except_map_ok, except_bind_ok, except_fmap_ok]
      rw [show (skeleton mB).add_triangle triB = skeleton (mB.add_triangle triB) from rfl,
          make_triangle_skeleton g]
      rcases hC : HalfEdgeMesh.make_triangle g (mB.add_triangle triB) 3 4 1 with s | ⟨mC, triC⟩
      · rfl
      · simp only [except_map_ok, except_bind_ok, except_fmap_ok]
        rw [show (skeleton mC).add_triangle triC = skeleton (mC.add_triangle triC) from rfl,
            make_triangle_skeleton g]
        rcases hD : HalfEdgeMesh.make_triangle g (mC.add_triangle triC) 4 3 2
          with s | ⟨mD, triD⟩
        · rfl
        · simp only [except_map_ok, except_bind_ok, except_fmap_ok]
          rw [show ((skeleton mD).add_triangle triD).move_verts [1, 2, 3, 4] =
                skeleton ((mD.add_triangle triD).move_verts [1, 2, 3, 4]) from rfl,
              connect_pairs_skeleton]

/-- C5: for any four input points (over any geometry), from_tetrahedron_pts
returns a mesh with exactly 4 registered vertices, 12 registered half-edges
and 4 registered faces, and the pairing verifier succeeds on it. -/
theorem tetrahedron_counts_and_verification {Pt Vec3 : Type} (g : GeomOps Pt Vec3)
    (p1 p2 p3 p4 : Pt) :
    (from_tetrahedron_pts g p1 p2 p3 p4).map (fun m =>
      (m.vertices.length, m.edges.length, m.faces.length, are_edge_pairs_valid m)) =
    .ok (4, 12, 4, .ok ()) := by
  have hsk := from_tetrahedron_pts_skeleton g p1 p2 p3 p4
  have hval : (from_tetrahedron_pts uOps () () () ()).map (fun m =>
      (m.vertices.length, m.edges.length, m.faces.length, are_edge_pairs_valid m)) =
    .ok (4, 12, 4, .ok ()) := rfl
  rcases hr : from_tetrahedron_pts g p1 p2 p3 p4 with s | m
  · rw [hr, except_map_error] at hsk
    rw [hsk, except_map_error] at hval
    exact absurd hval (by simp)
  · rw [hr, except_map_ok] at hsk
    rw [hsk, except_map_ok] at hval
    rw [except_map_ok]
    rw [show (skeleton m).vertices = m.vertices from rfl,
        show (skeleton m).edges = m.edges from rfl,
        show (skeleton m).faces = m.faces from rfl,
        are_edge_pairs_valid_skeleton] at hval
    exact hval

/-- Concrete run of the C5 theorem at the Unit geometry. -/
theorem tetrahedron_counts_and_verification_witness :
    (from_tetrahedron_pts uOps () () () ()).map (fun m =>
      (m.vertices.length, m.edges.length, m.faces.length, are_edge_pairs_valid m)) =
    .ok (4, 12, 4, .ok ()) :=
  tetrahedron_counts_and_verification uOps () () () ()

/-- Concrete run of the C1 amended theorem on the counterexample mesh. -/
theorem attach_malformed_frame_witness :
    attach_point_for_faces uOps () [1] cexMeshA =
      ((attach_point_for_faces uOps () [1] cexMeshA).1,
       .error "Horizon is malformed - it does not form a connected loop") ∧
    VertFrame cexMeshA (attach_point_for_faces uOps () [1] cexMeshA).1 :=
  ⟨rfl, attach_malformed_frame uOps () [1] cexMeshA _ rfl⟩


/-- Upgrading a non-null pointer is a heap lookup. -/
theorem upg_some {α : Type} (h : List (Nat × α)) (k : Nat) :
    upg h (some k) = alookup h k := rfl

theorem length_aupdate {κ α : Type} [DecidableEq κ] (l : List (κ × α)) (k : κ) (f : α → α) :
    (aupdate l k f).length = l.length := by
  induction l with
  | nil => rfl
  | cons p t ih =>
    obtain ⟨a, b⟩ := p
    by_cases h : a = k <;> simp [aupdate, h, ih]

theorem faceVertPtrsAux_tri_cycle (hE : List (Nat × Edge)) (a b c : Nat)
    (ea eb ec : Edge) (ha : alookup hE a = some ea) (hb : alookup hE b = some eb)
    (hc : alookup hE c = some ec) (hna : ea.next = some b) (hnb : eb.next = some c)
    (hnc : ec.next = some a) (hia : ea.id = a) (hib : eb.id = b) (hic : ec.id = c)
    (hba : b ≠ a) (hca : c ≠ a) (fuel : Nat) (hf : 3 ≤ fuel) :
    faceVertPtrsAux hE (some a) (some a) fuel = [eb.origin, ec.origin] := by
  obtain ⟨n, rfl⟩ : ∃ n, fuel = n + 3 := ⟨fuel - 3, by omega⟩
  simp only [faceVertPtrsAux, upg_some, ha, hb, hc, hna, hnb, hnc, hia, hib, hic, ne_eq]
  simp [hba, hca]

theorem compute_attrs_tri_eq {Pt Vec3 : Type} (g : GeomOps Pt Vec3)
    (hE : List (Nat × Edge)) (hV : List (Nat × Vert Pt)) (f : Face Pt Vec3)
    (a b c va vb vc : Nat) (ea eb ec : Edge) (wa wb wc : Vert Pt)
    (hfe : f.edge = some a)
    (ha : alookup hE a = some ea) (hb : alookup hE b = some eb)
    (hc2 : alookup hE c = some ec)
    (hna : ea.next = some b) (hnb : eb.next = some c) (hnc : ec.next = some a)
    (hia : ea.id = a) (hib : eb.id = b) (hic : ec.id = c)
    (hba2 : b ≠ a) (hca2 : c ≠ a)
    (hlen : 2 ≤ hE.length)
    (hoa : ea.origin = some va) (hob : eb.origin = some vb) (hoc : ec.origin = some vc)
    (hwa : alookup hV va = some wa) (hwb : alookup hV vb = some wb)
    (hwc : alookup hV vc = some wc) :
    compute_attrs g hE hV f = .ok { f with
      center := g.divPt (g.addPt (g.addPt (g.addPt g.zeroPt wa.pos) wb.pos) wc.pos) 3,
      normal := g.normalize (g.cross (g.subPt wb.pos wa.pos) (g.subPt wc.pos wa.pos)) } := by
  have hl : (face_adjacent_verts hE hV f).filterMap (alookup hV) = [wa, wb, wc] := by
    unfold face_adjacent_verts
    rw [hfe]
    unfold faceVertPtrs
    rw [upg_some, ha]
    dsimp only
    rw [faceVertPtrsAux_tri_cycle hE a b c ea eb ec ha hb hc2 hna hnb hnc hia hib hic
          hba2 hca2 (hE.length + 1) (by omega), hoa, hob, hoc]
    simp [toPtrVec, upgKey, hwa, hwb, hwc]
  unfold compute_attrs
  dsimp only
  rw [hl]
  rfl

/-- C8: make_triangle allocates three fresh half-edges wired in the next
cycle v1→v2→v3→v1 with null pair links, one face linked to the first edge,
redirects each vertex's incident-edge pointer to its outgoing new edge,
returns the four new ids, and leaves the three registered-entity tables
unchanged. -/
theorem make_triangle_wires_fresh_triangle {Pt Vec3 : Type} (g : GeomOps Pt Vec3)
    (m : HalfEdgeMesh Pt Vec3) (v1 v2 v3 i1 i2 i3 fi : Nat) (w1 w2 w3 : Vert Pt)
    (hi1 : i1 = wrap32 (m.cur_edge_id + 1)) (hi2 : i2 = wrap32 (i1 + 1))
    (hi3 : i3 = wrap32 (i2 + 1)) (hfi : fi = wrap32 (m.cur_face_id + 1))
    (h12 : i1 ≠ i2) (h13 : i1 ≠ i3) (h23 : i2 ≠ i3)
    (hv12 : v1 ≠ v2) (hv13 : v1 ≠ v3) (hv23 : v2 ≠ v3)
    (hw1 : alookup m.heapV v1 = some w1) (hw2 : alookup m.heapV v2 = some w2)
    (hw3 : alookup m.heapV v3 = some w3)
    (hfr1 : alookup m.heapE i1 = none) (hfr2 : alookup m.heapE i2 = none)
    (hfr3 : alookup m.heapE i3 = none) :
    ∃ m2 : HalfEdgeMesh Pt Vec3,
      m.make_triangle g v1 v2 v3 = .ok (m2, (fi, i1, i2, i3)) ∧
      m2.edges = m.edges ∧ m2.vertices = m.vertices ∧ m2.faces = m.faces ∧
      alookup m2.heapE i1 = some ⟨some i2, none, some v1, some fi, i1⟩ ∧
      alookup m2.heapE i2 = some ⟨some i3, none, some v2, some fi, i2⟩ ∧
      alookup m2.heapE i3 = some ⟨some i1, none, some v3, some fi, i3⟩ ∧
      (alookup m2.heapF fi).map (fun f => (f.edge, f.id)) = some (some i1, fi) ∧
      alookup m2.heapV v1 = some { w1 with edge := some i1 } ∧
      alookup m2.heapV v2 = some { w2 with edge := some i2 } ∧
      alookup m2.heapV v3 = some { w3 with edge := some i3 } := by
  unfold HalfEdgeMesh.make_triangle
  dsimp only [HalfEdgeMesh.new_edge_id, HalfEdgeMesh.new_face_id, HalfEdgeMesh.allocE,
    HalfEdgeMesh.allocF, HalfEdgeMesh.updE, HalfEdgeMesh.updV, Edge.with_origin,
    Face.with_edge]
  rw [← hi1, ← hi2, ← hi3, ← hfi]
  have hE1 : alookup (aupdate (aupdate (aupdate (aupdate (aupdate (aupdate
      (aset (aset (aset m.heapE i1 (⟨none, none, some v1, none, i1⟩ : Edge))
          i2 (⟨none, none, some v2, none, i2⟩ : Edge))
        i3 (⟨none, none, some v3, none, i3⟩ : Edge))
      i1 (fun e => { e with next := some i2 })) i2 (fun e => { e with next := some i3 }))
      i3 (fun e => { e with next := some i1 })) i1 (fun e => { e with face := some fi }))
      i2 (fun e => { e with face := some fi })) i3 (fun e => { e with face := some fi })) i1
      = some ⟨some i2, none, some v1, some fi, i1⟩ := by
    rw [alookup_aupdate_ne _ _ _ _ (Ne.symm h13), alookup_aupdate_ne _ _ _ _ (Ne.symm h12),
        alookup_aupdate_self, alookup_aupdate_ne _ _ _ _ (Ne.symm h13),
        alookup_aupdate_ne _ _ _ _ (Ne.symm h12), alookup_aupdate_self,
        alookup_aset_ne _ _ _ _ (Ne.symm h13), alookup_aset_ne _ _ _ _ (Ne.symm h12),
        alookup_aset_self]
    rfl
  have hE2 : alookup (aupdate (aupdate (aupdate (aupdate (aupdate (aupdate
      (aset (aset (aset m.heapE i1 (⟨none, none, some v1, none, i1⟩ : Edge))
          i2 (⟨none, none, some v2, none, i2⟩ : Edge))
        i3 (⟨none, none, some v3, none, i3⟩ : Edge))
      i1 (fun e => { e with next := some i2 })) i2 (fun e => { e with next := some i3 }))
      i3 (fun e => { e with next := some i1 })) i1 (fun e => { e with face := some fi }))
      i2 (fun e => { e with face := some fi })) i3 (fun e => { e with face := some fi })) i2
      = some ⟨some i3, none, some v2, some fi, i2⟩ := by
    rw [alookup_aupdate_ne _ _ _ _ (Ne.symm h23), alookup_aupdate_self,
        alookup_aupdate_ne _ _ _ _ h12, alookup_aupdate_ne _ _ _ _ (Ne.symm h23),
        alookup_aupdate_self, alookup_aupdate_ne _ _ _ _ h12,
        alookup_aset_ne _ _ _ _ (Ne.symm h23), alookup_aset_self]
    rfl
  have hE3 : alookup (aupdate (aupdate (aupdate (aupdate (aupdate (aupdate
      (aset (aset (aset m.heapE i1 (⟨none, none, some v1, none, i1⟩ : Edge))
          i2 (⟨none, none, some v2, none, i2⟩ : Edge))
        i3 (⟨none, none, some v3, none, i3⟩ : Edge))
      i1 (fun e => { e with next := some i2 })) i2 (fun e => { e with next := some i3 }))
      i3 (fun e => { e with next := some i1 })) i1 (fun e => { e with face := some fi }))
      i2 (fun e => { e with face := some fi })) i3 (fun e => { e with face := some fi })) i3
      = some ⟨some i1, none, some v3, some fi, i3⟩ := by
    rw [alookup_aupdate_self, alookup_aupdate_ne _ _ _ _ h23,
        alookup_aupdate_ne _ _ _ _ h13, alookup_aupdate_self,
        alookup_aupdate_ne _ _ _ _ h23, alookup_aupdate_ne _ _ _ _ h13,
        alookup_aset_self]
    rfl
  have hV1 : alookup (aupdate (aupdate (aupdate m.heapV
        v1 (fun v => { v with edge := some i1 })) v2 (fun v => { v with edge := some i2 }))
        v3 (fun v => { v with edge := some i3 })) v1 = some { w1 with edge := some i1 } := by
    rw [alookup_aupdate_ne _ _ _ _ (Ne.symm hv13), alookup_aupdate_ne _ _ _ _ (Ne.symm hv12),
        alookup_aupdate_self, hw1]
    rfl
  have hV2 : alookup (aupdate (aupdate (aupdate m.heapV
        v1 (fun v => { v with edge := some i1 })) v2 (fun v => { v with edge := some i2 }))
        v3 (fun v => { v with edge := some i3 })) v2 = some { w2 with edge := some i2 } := by
    rw [alookup_aupdate_ne _ _ _ _ (Ne.symm hv23), alookup_aupdate_self,
        alookup_aupdate_ne _ _ _ _ hv12, hw2]
    rfl
  have hV3 : alookup (aupdate (aupdate (aupdate m.heapV
        v1 (fun v => { v with edge := some i1 })) v2 (fun v => { v with edge := some i2 }))
        v3 (fun v => { v with edge := some i3 })) v3 = some { w3 with edge := some i3 } := by
    rw [alookup_aupdate_self, alookup_aupdate_ne _ _ _ _ hv23,
        alookup_aupdate_ne _ _ _ _ hv13, hw3]
    rfl
  have hlen : 2 ≤ (aupdate (aupdate (aupdate (aupdate (aupdate (aupdate
      (aset (aset (aset m.heapE i1 (⟨none, none, some v1, none, i1⟩ : Edge))
          i2 (⟨none, none, some v2, none, i2⟩ : Edge))
        i3 (⟨none, none, some v3, none, i3⟩ : Edge))
      i1 (fun e => { e with next := some i2 })) i2 (fun e => { e with next := some i3 }))
      i3 (fun e => { e with next := some i1 })) i1 (fun e => { e with face := some fi }))
      i2 (fun e => { e with face := some fi })) i3
        (fun e => { e with face := some fi })).length := by
    rw [length_aupdate, length_aupdate, length_aupdate, length_aupdate, length_aupdate,
        length_aupdate,
        length_aset_of_none _ _ _
          (by rw [alookup_aset_ne _ _ _ _ h23, alookup_aset_ne _ _ _ _ h13]; exact hfr3),
        length_aset_of_none _ _ _ (by rw [alookup_aset_ne _ _ _ _ h12]; exact hfr2),
        length_aset_of_none _ _ _ hfr1]
    omega
  rw [alookup_aset_self]
  dsimp only
  rw [compute_attrs_tri_eq g _ _ (⟨some i1, g.unitZ, g.zeroPt, fi⟩ : Face Pt Vec3)
        i1 i2 i3 v1 v2 v3 _ _ _ _ _ _ rfl hE1 hE2 hE3 rfl rfl rfl rfl rfl rfl
        (Ne.symm h12) (Ne.symm h13) hlen rfl rfl rfl hV1 hV2 hV3]
  exact ⟨_, rfl, rfl, rfl, rfl, hE1, hE2, hE3, (by rw [alookup_aset_self]; rfl), hV1, hV2, hV3⟩

/-- Concrete run of the C8 theorem: a new triangle over the vertices of
triMesh. -/
theorem make_triangle_wires_fresh_triangle_witness :
    ∃ m2 : HalfEdgeMesh Unit Unit,
      triMesh.make_triangle uOps 1 2 3 = .ok (m2, (2, 4, 5, 6)) ∧
      m2.edges = triMesh.edges ∧ m2.vertices = triMesh.vertices ∧
      m2.faces = triMesh.faces ∧
      alookup m2.heapE 4 = some ⟨some 5, none, some 1, some 2, 4⟩ ∧
      alookup m2.heapE 5 = some ⟨some 6, none, some 2, some 2, 5⟩ ∧
      alookup m2.heapE 6 = some ⟨some 4, none, some 3, some 2, 6⟩ ∧
      (alookup m2.heapF 2).map (fun f => (f.edge, f.id)) = some (some 4, 2) ∧
      alookup m2.heapV 1 = some ⟨some 4, (), 1⟩ ∧
      alookup m2.heapV 2 = some ⟨some 5, (), 2⟩ ∧
      alookup m2.heapV 3 = some ⟨some 6, (), 3⟩ :=
  make_triangle_wires_fresh_triangle uOps triMesh 1 2 3 4 5 6 2
    ⟨some 1, (), 1⟩ ⟨some 2, (), 2⟩ ⟨some 3, (), 3⟩
    (by decide) (by decide) (by decide) (by decide) (by decide) (by decide) (by decide)
    (by decide) (by decide) (by decide) (by decide) (by decide) (by decide)
    (by decide) (by decide) (by decide)


/-- One iteration of the face-subdivision loop of triangulate_face: the base
edge is rewired into a fresh face together with a fresh leading and trailing
edge toward the apex vertex; everything else is characterized by frame
conditions. -/
theorem triFaceLoop_step {Pt Vec3 : Type} (g : GeomOps Pt Vec3)
    (faceVerts : List Nat) (vlen apexId : Nat) (baseId : Nat) (rest : List Nat)
    (i : Nat) (m : HalfEdgeMesh Pt Vec3) (leads trails : List Nat)
    (vi vn nfid leadId trailId : Nat) (be : Edge) (wi wn wapex : Vert Pt)
    (hvi : faceVerts.get? i = some vi) (hvn : faceVerts.get? ((i + 1) % vlen) = some vn)
    (hnfid : nfid = wrap32 (m.cur_face_id + 1))
    (hlead : leadId = wrap32 (m.cur_edge_id + 1)) (htrail : trailId = wrap32 (leadId + 1))
    (hbe : alookup m.heapE baseId = some be) (hbid : be.id = baseId)
    (hlb : leadId ≠ baseId) (htb : trailId ≠ baseId) (hlt : leadId ≠ trailId)
    (hfl : alookup m.heapE leadId = none) (hft : alookup m.heapE trailId = none)
    (hwi : alookup m.heapV vi = some wi) (hwn : alookup m.heapV vn = some wn)
    (hwapex : alookup m.heapV apexId = some wapex)
    (hvia : vi ≠ apexId) (hvna : vn ≠ apexId) (hvni : vn ≠ vi) :
    ∃ M : HalfEdgeMesh Pt Vec3,
      triFaceLoop g faceVerts vlen apexId (baseId :: rest) i m leads trails =
        triFaceLoop g faceVerts vlen apexId rest (i + 1) M
          (leads ++ [leadId]) (trails ++ [trailId]) ∧
      alookup M.heapE baseId =
        some ⟨some leadId, be.pair, some vi, some nfid, be.id⟩ ∧
      alookup M.heapE leadId = some ⟨some trailId, none, some vn, some nfid, leadId⟩ ∧
      alookup M.heapE trailId = some ⟨some baseId, none, some apexId, some nfid, trailId⟩ ∧
      (∀ k, k ≠ baseId → k ≠ leadId → k ≠ trailId →
        alookup M.heapE k = alookup m.heapE k) ∧
      M.heapE.length = m.heapE.length + 2 ∧
      alookup M.heapV vi = some { wi with edge := some baseId } ∧
      alookup M.heapV apexId = some { wapex with edge := some trailId } ∧
      (∀ k, k ≠ vi → k ≠ apexId → alookup M.heapV k = alookup m.heapV k) ∧
      (∀ k, k ≠ nfid → alookup M.heapF k = alookup m.heapF k) ∧
      M.edges = insertId (insertId m.edges leadId) trailId ∧
      M.vertices = m.vertices ∧
      M.faces = insertId m.faces nfid ∧
      M.cur_edge_id = trailId ∧ M.cur_vert_id = m.cur_vert_id ∧
      M.cur_face_id = nfid := by
  have hupgk : upgKey m.heapV (some vi) = some vi := by simp [upgKey, hwi]
  simp only [triFaceLoop]
  rw [hvi]
  dsimp only
  dsimp only [HalfEdgeMesh.updE, HalfEdgeMesh.updV, HalfEdgeMesh.new_face_id,
    HalfEdgeMesh.allocF, HalfEdgeMesh.new_edge_id, HalfEdgeMesh.allocE,
    HalfEdgeMesh.push_edge, HalfEdgeMesh.push_face, Edge.with_origin, Face.with_edge]
  rw [alookup_aupdate_self, hbe]
  dsimp only [Option.map]
  rw [hupgk]
  dsimp only
  rw [← hnfid, ← hlead, ← htrail, hvn]
  dsimp only
  have hLB : alookup (aupdate (aupdate (aupdate (aupdate (aupdate (aupdate
      (aset (aset (aupdate m.heapE baseId (fun e => { e with origin := some vi }))
          leadId (⟨none, none, some vn, none, leadId⟩ : Edge))
        trailId (⟨none, none, some apexId, none, trailId⟩ : Edge))
      baseId (fun e => { e with face := some nfid }))
      leadId (fun e => { e with face := some nfid }))
      trailId (fun e => { e with face := some nfid }))
      baseId (fun e => { e with next := some leadId }))
      leadId (fun e => { e with next := some trailId }))
      trailId (fun e => { e with next := some baseId })) baseId
      = some ⟨some leadId, be.pair, some vi, some nfid, be.id⟩ := by
    rw [alookup_aupdate_ne _ _ _ _ htb, alookup_aupdate_ne _ _ _ _ hlb,
        alookup_aupdate_self, alookup_aupdate_ne _ _ _ _ htb,
        alookup_aupdate_ne _ _ _ _ hlb, alookup_aupdate_self,
        alookup_aset_ne _ _ _ _ htb, alookup_aset_ne _ _ _ _ hlb,
        alookup_aupdate_self, hbe]
    rfl
  have hLL : alookup (aupdate (aupdate (aupdate (aupdate (aupdate (aupdate
      (aset (aset (aupdate m.heapE baseId (fun e => { e with origin := some vi }))
          leadId (⟨none, none, some vn, none, leadId⟩ : Edge))
        trailId (⟨none, none, some apexId, none, trailId⟩ : Edge))
      baseId (fun e => { e with face := some nfid }))
      leadId (fun e => { e with face := some nfid }))
      trailId (fun e => { e with face := some nfid }))
      baseId (fun e => { e with next := some leadId }))
      leadId (fun e => { e with next := some trailId }))
      trailId (fun e => { e with next := some baseId })) leadId
      = some ⟨some trailId, none, some vn, some nfid, leadId⟩ := by
    rw [alookup_aupdate_ne _ _ _ _ (Ne.symm hlt), alookup_aupdate_self,
        alookup_aupdate_ne _ _ _ _ (Ne.symm hlb), alookup_aupdate_ne _ _ _ _ (Ne.symm hlt),
        alookup_aupdate_self, alookup_aupdate_ne _ _ _ _ (Ne.symm hlb),
        alookup_aset_ne _ _ _ _ (Ne.symm hlt), alookup_aset_self]
    rfl
  have hLT : alookup (aupdate (aupdate (aupdate (aupdate (aupdate (aupdate
      (aset (aset (aupdate m.heapE baseId (fun e => { e with origin := some vi }))
          leadId (⟨none, none, some vn, none, leadId⟩ : Edge))
        trailId (⟨none, none, some apexId, none, trailId⟩ : Edge))
      baseId (fun e => { e with face := some nfid }))
      leadId (fun e => { e with face := some nfid }))
      trailId (fun e => { e with face := some nfid }))
      baseId (fun e => { e with next := some leadId }))
      leadId (fun e => { e with next := some trailId }))
      trailId (fun e => { e with next := some baseId })) trailId
      = some ⟨some baseId, none, some apexId, some nfid, trailId⟩ := by
    rw [alookup_aupdate_self, alookup_aupdate_ne _ _ _ _ hlt,
        alookup_aupdate_ne _ _ _ _ (Ne.symm htb), alookup_aupdate_self,
        alookup_aupdate_ne _ _ _ _ hlt, alookup_aupdate_ne _ _ _ _ (Ne.symm htb),
        alookup_aset_self]
    rfl
  have hLVi : alookup (aupdate (aupdate m.heapV vi (fun v => { v with edge := some baseId }))
      apexId (fun v => { v with edge := some trailId })) vi
      = some { wi with edge := some baseId } := by
    rw [alookup_aupdate_ne _ _ _ _ (Ne.symm hvia), alookup_aupdate_self, hwi]
    rfl
  have hLVa : alookup (aupdate (aupdate m.heapV vi (fun v => { v with edge := some baseId }))
      apexId (fun v => { v with edge := some trailId })) apexId
      = some { wapex with edge := some trailId } := by
    rw [alookup_aupdate_self, alookup_aupdate_ne _ _ _ _ hvia, hwapex]
    rfl
  have hLVn : alookup (aupdate (aupdate m.heapV vi (fun v => { v with edge := some baseId }))
      apexId (fun v => { v with edge := some trailId })) vn = some wn := by
    rw [alookup_aupdate_ne _ _ _ _ (Ne.symm hvna), alookup_aupdate_ne _ _ _ _ (Ne.symm hvni)]
    exact hwn
  have hlen2 : (aupdate (aupdate (aupdate (aupdate (aupdate (aupdate
      (aset (aset (aupdate m.heapE baseId (fun e => { e with origin := some vi }))
          leadId (⟨none, none, some vn, none, leadId⟩ : Edge))
        trailId (⟨none, none, some apexId, none, trailId⟩ : Edge))
      baseId (fun e => { e with face := some nfid }))
      leadId (fun e => { e with face := some nfid }))
      trailId (fun e => { e with face := some nfid }))
      baseId (fun e => { e with next := some leadId }))
      leadId (fun e => { e with next := some trailId }))
      trailId (fun e => { e with next := some baseId })).length
      = m.heapE.length + 2 := by
    rw [length_aupdate, length_aupdate, length_aupdate, length_aupdate, length_aupdate,
        length_aupdate,
        length_aset_of_none _ _ _
          (by rw [alookup_aset_ne _ _ _ _ hlt, alookup_aupdate_ne _ _ _ _ (Ne.symm htb)]
              exact hft),
        length_aset_of_none _ _ _
          (by rw [alookup_aupdate_ne _ _ _ _ (Ne.symm hlb)]; exact hfl),
        length_aupdate]
  rw [alookup_aset_self]
  dsimp only
  rw [compute_attrs_tri_eq g _ _ (⟨some baseId, g.unitZ, g.zeroPt, nfid⟩ : Face Pt Vec3)
      baseId leadId trailId vi vn apexId _ _ _ _ _ _ rfl hLB hLL hLT rfl rfl rfl hbid rfl rfl
      hlb htb (by rw [hlen2]; omega) rfl rfl rfl hLVi hLVn hLVa]
  dsimp only
  refine ⟨_, rfl, hLB, hLL, hLT, ?_, hlen2, hLVi, hLVa, ?_, ?_, rfl, rfl, rfl, rfl, rfl, rfl⟩
  · intro k hk1 hk2 hk3
    rw [alookup_aupdate_ne _ _ _ _ (Ne.symm hk3), alookup_aupdate_ne _ _ _ _ (Ne.symm hk2),
        alookup_aupdate_ne _ _ _ _ (Ne.symm hk1), alookup_aupdate_ne _ _ _ _ (Ne.symm hk3),
        alookup_aupdate_ne _ _ _ _ (Ne.symm hk2), alookup_aupdate_ne _ _ _ _ (Ne.symm hk1),
        alookup_aset_ne _ _ _ _ (Ne.symm hk3), alookup_aset_ne _ _ _ _ (Ne.symm hk2),
        alookup_aupdate_ne _ _ _ _ (Ne.symm hk1)]
  · intro k h1 h2
    rw [alookup_aupdate_ne _ _ _ _ (Ne.symm h2), alookup_aupdate_ne _ _ _ _ (Ne.symm h1)]
  · intro k h
    rw [alookup_aset_ne _ _ _ _ (Ne.symm h), alookup_aset_ne _ _ _ _ (Ne.symm h)]

theorem alookup_mem {κ α : Type} [DecidableEq κ] (l : List (κ × α)) (k : κ) (v : α)
    (h : alookup l k = some v) : (k, v) ∈ l := by
  induction l with
  | nil => simp [alookup] at h
  | cons p t ih =>
    obtain ⟨a, b⟩ := p
    by_cases ha : a = k
    · subst ha
      simp [alookup] at h
      simp [h]
    · simp [alookup, ha] at h
      simp [ih h]

theorem alookup_none_of_bound {α : Type} (l : List (Nat × α)) (B k : Nat)
    (hb : ∀ p ∈ l, p.1 ≤ B) (hk : B < k) : alookup l k = none := by
  cases h : alookup l k with
  | none => rfl
  | some v =>
    have h2 := hb (k, v) (alookup_mem l k v h)
    simp at h2
    omega

/-- The pair-connection loop of triangulate_face touches only the edge heap. -/
theorem triPairLoop_tables {Pt Vec3 : Type} (m : HalfEdgeMesh Pt Vec3)
    (leads trails : List Nat) :
    (triPairLoop m leads trails).heapF = m.heapF ∧
    (triPairLoop m leads trails).edges = m.edges ∧
    (triPairLoop m leads trails).vertices = m.vertices ∧
    (triPairLoop m leads trails).faces = m.faces := by
  unfold triPairLoop
  generalize List.range leads.length = idxs
  induction idxs generalizing m with
  | nil => exact ⟨rfl, rfl, rfl, rfl⟩
  | cons i rest ih =>
    simp only [List.foldl]
    cases h1 : leads.get? i with
    | none =>
      cases h2 : trails.get? ((i + 1) % trails.length) with
      | none => exact ih m
      | some t => exact ih m
    | some l =>
      cases h2 : trails.get? ((i + 1) % trails.length) with
      | none => exact ih m
      | some t =>
        exact ⟨(ih _).1, (ih _).2.1, (ih _).2.2.1, (ih _).2.2.2⟩

/-- C2 (amended): on a registered triangular face (boundary walk of three
live edges over three live vertices, fresh counter-derived ids), the
subdivision succeeds and the entity tables change by exactly +1 vertex,
+6 half-edges and +2 faces: the three boundary edges are kept and six new
half-edges are registered, not two. -/
theorem triangulate_face_full_counts {Pt Vec3 : Type} (g : GeomOps Pt Vec3) (point : Pt)
    (fid : Nat) (m0 : HalfEdgeMesh Pt Vec3) (target : Face Pt Vec3)
    (a b c va vb vc : Nat) (ea eb ec : Edge) (wva wvb wvc : Vert Pt)
    (htgt : alookup m0.heapF fid = some target) (htid : target.id = fid)
    (hfidreg : fid ∈ m0.faces)
    (hfe : face_adjacent_edges m0.heapE target = [a, b, c])
    (hfv : face_adjacent_verts m0.heapE m0.heapV target = [va, vb, vc])
    (hea : alookup m0.heapE a = some ea) (heaid : ea.id = a)
    (heb : alookup m0.heapE b = some eb) (hebid : eb.id = b)
    (hec : alookup m0.heapE c = some ec) (hecid : ec.id = c)
    (hba : b ≠ a) (hca2 : c ≠ a) (hcb : c ≠ b)
    (hwa : alookup m0.heapV va = some wva) (hwb : alookup m0.heapV vb = some wvb)
    (hwc : alookup m0.heapV vc = some wvc)
    (hvba : vb ≠ va) (hvcb : vc ≠ vb) (hvac : va ≠ vc)
    (hEheap : ∀ p ∈ m0.heapE, p.1 ≤ m0.cur_edge_id)
    (hVheap : ∀ p ∈ m0.heapV, p.1 ≤ m0.cur_vert_id)
    (hFheap : ∀ p ∈ m0.heapF, p.1 ≤ m0.cur_face_id)
    (hEreg : ∀ k ∈ m0.edges, k ≤ m0.cur_edge_id)
    (hVreg : ∀ k ∈ m0.vertices, k ≤ m0.cur_vert_id)
    (hFreg : ∀ k ∈ m0.faces, k ≤ m0.cur_face_id)
    (hce : m0.cur_edge_id + 6 < 2 ^ 32) (hcv : m0.cur_vert_id + 1 < 2 ^ 32)
    (hcf : m0.cur_face_id + 3 < 2 ^ 32) :
    ∃ m2 : HalfEdgeMesh Pt Vec3,
      triangulate_face g point fid m0 = .ok m2 ∧
      m2.vertices.length = m0.vertices.length + 1 ∧
      m2.edges.length = m0.edges.length + 6 ∧
      m2.faces.length = m0.faces.length + 2 := by
  have haLe : a ≤ m0.cur_edge_id := hEheap _ (alookup_mem _ _ _ hea)
  have hbLe : b ≤ m0.cur_edge_id := hEheap _ (alookup_mem _ _ _ heb)
  have hcLe : c ≤ m0.cur_edge_id := hEheap _ (alookup_mem _ _ _ hec)
  have hvaLe : va ≤ m0.cur_vert_id := hVheap _ (alookup_mem _ _ _ hwa)
  have hvbLe : vb ≤ m0.cur_vert_id := hVheap _ (alookup_mem _ _ _ hwb)
  have hvcLe : vc ≤ m0.cur_vert_id := hVheap _ (alookup_mem _ _ _ hwc)
  have hfidLe : fid ≤ m0.cur_face_id := hFheap _ (alookup_mem _ _ _ htgt)
  have hfrE : ∀ k, m0.cur_edge_id < k → alookup m0.heapE k = none :=
    fun k hk => alookup_none_of_bound _ _ _ hEheap hk
  unfold triangulate_face
  rw [htgt]
  dsimp only
  rw [hfe, hfv, show ([va, vb, vc] : List Nat).length = 3 from rfl]
  dsimp only [HalfEdgeMesh.new_vert_id, HalfEdgeMesh.allocV, Vert.empty]
  rw [show wrap32 (m0.cur_vert_id + 1) = m0.cur_vert_id + 1 from
        Nat.mod_eq_of_lt (by omega)]
  obtain ⟨M1, hstep1, hLB1, hLL1, hLT1, hpE1, hlen1, hLVi1, hLVa1, hpV1, hpF1, hed1,
      hvt1, hfc1, hcei1, hcvi1, hcfi1⟩ :=
    triFaceLoop_step g [va, vb, vc] 3 (m0.cur_vert_id + 1) a [b, c] 0
      ({ m0 with
          heapV := aset m0.heapV (m0.cur_vert_id + 1) ⟨none, point, m0.cur_vert_id + 1⟩,
          cur_vert_id := m0.cur_vert_id + 1 }) [] []
      va vb (m0.cur_face_id + 1) (m0.cur_edge_id + 1) (m0.cur_edge_id + 2)
      ea wva wvb ⟨none, point, m0.cur_vert_id + 1⟩
      rfl rfl
      ((Nat.mod_eq_of_lt (by omega)).symm)
      ((Nat.mod_eq_of_lt (by omega)).symm)
      ((Nat.mod_eq_of_lt (by omega)).symm)
      hea heaid
      (by omega) (by omega) (by omega)
      (hfrE _ (by omega)) (hfrE _ (by omega))
      (by dsimp only; rw [alookup_aset_ne _ _ _ _ (by omega)]; exact hwa)
      (by dsimp only; rw [alookup_aset_ne _ _ _ _ (by omega)]; exact hwb)
      (by dsimp only; exact alookup_aset_self _ _ _)
      (by omega) (by omega) hvba
  rw [hstep1]
  obtain ⟨M2, hstep2, hLB2, hLL2, hLT2, hpE2, hlen2, hLVi2, hLVa2, hpV2, hpF2, hed2,
      hvt2, hfc2, hcei2, hcvi2, hcfi2⟩ :=
    triFaceLoop_step g [va, vb, vc] 3 (m0.cur_vert_id + 1) b [c] (0 + 1) M1
      ([] ++ [m0.cur_edge_id + 1]) ([] ++ [m0.cur_edge_id + 2])
      vb vc (m0.cur_face_id + 2) (m0.cur_edge_id + 3) (m0.cur_edge_id + 4)
      eb _ _ _
      rfl rfl
      (by rw [hcfi1]; exact (Nat.mod_eq_of_lt (by omega)).symm)
      (by rw [hcei1]; exact (Nat.mod_eq_of_lt (by omega)).symm)
      ((Nat.mod_eq_of_lt (by omega)).symm)
      (by rw [hpE1 b hba (by omega) (by omega)]; exact heb)
      hebid
      (by omega) (by omega) (by omega)
      (by rw [hpE1 _ (by omega) (by omega) (by omega)]; exact hfrE _ (by omega))
      (by rw [hpE1 _ (by omega) (by omega) (by omega)]; exact hfrE _ (by omega))
      (by rw [hpV1 vb hvba (by omega)]; dsimp only
          rw [alookup_aset_ne _ _ _ _ (by omega)]; exact hwb)
      (by rw [hpV1 vc (Ne.symm hvac) (by omega)]; dsimp only
          rw [alookup_aset_ne _ _ _ _ (by omega)]; exact hwc)
      hLVa1
      (by omega) (by omega) hvcb
  rw [hstep2]
  obtain ⟨M3, hstep3, hLB3, hLL3, hLT3, hpE3, hlen3, hLVi3, hLVa3, hpV3, hpF3, hed3,
      hvt3, hfc3, hcei3, hcvi3, hcfi3⟩ :=
    triFaceLoop_step g [va, vb, vc] 3 (m0.cur_vert_id + 1) c [] (0 + 1 + 1) M2
      (([] ++ [m0.cur_edge_id + 1]) ++ [m0.cur_edge_id + 3])
      (([] ++ [m0.cur_edge_id + 2]) ++ [m0.cur_edge_id + 4])
      vc va (m0.cur_face_id + 3) (m0.cur_edge_id + 5) (m0.cur_edge_id + 6)
      ec _ _ _
      rfl rfl
      (by rw [hcfi2]; exact (Nat.mod_eq_of_lt (by omega)).symm)
      (by rw [hcei2]; exact (Nat.mod_eq_of_lt (by omega)).symm)
      ((Nat.mod_eq_of_lt (by omega)).symm)
      (by rw [hpE2 c hcb (by omega) (by omega), hpE1 c hca2 (by omega) (by omega)]
          exact hec)
      hecid
      (by omega) (by omega) (by omega)
      (by rw [hpE2 _ (by omega) (by omega) (by omega),
              hpE1 _ (by omega) (by omega) (by omega)]
          exact hfrE _ (by omega))
      (by rw [hpE2 _ (by omega) (by omega) (by omega),
              hpE1 _ (by omega) (by omega) (by omega)]
          exact hfrE _ (by omega))
      (by rw [hpV2 vc hvcb (by omega), hpV1 vc (Ne.symm hvac) (by omega)]; dsimp only
          rw [alookup_aset_ne _ _ _ _ (by omega)]; exact hwc)
      (by rw [hpV2 va (Ne.symm hvba) (by omega)]; exact hLVi1)
      hLVa2
      (by omega) (by omega) hvac
  rw [hstep3]
  simp only [triFaceLoop]
  dsimp only [HalfEdgeMesh.push_vert]
  have hFfid : alookup M3.heapF fid = some target := by
    rw [hpF3 fid (by omega), hpF2 fid (by omega), hpF1 fid (by omega)]
    exact htgt
  rw [(triPairLoop_tables _ _ _).1]
  dsimp only
  rw [hFfid]
  dsimp only
  refine ⟨_, rfl, ?_, ?_, ?_⟩
  · rw [(triPairLoop_tables _ _ _).2.2.1]
    dsimp only
    rw [hvt3, hvt2, hvt1]
    dsimp only
    rw [length_insertId_of_not_mem _ _ (fun hm => absurd (hVreg _ hm) (by omega))]
  · rw [(triPairLoop_tables _ _ _).2.1]
    dsimp only
    rw [hed3, hed2, hed1]
    dsimp only
    have h1 : (m0.cur_edge_id + 1) ∉ m0.edges := fun hm => absurd (hEreg _ hm) (by omega)
    have h2 : (m0.cur_edge_id + 2) ∉ insertId m0.edges (m0.cur_edge_id + 1) := by
      rw [mem_insertId]
      rintro (hm | h)
      · exact absurd (hEreg _ hm) (by omega)
      · omega
    have h3 : (m0.cur_edge_id + 3) ∉
        insertId (insertId m0.edges (m0.cur_edge_id + 1)) (m0.cur_edge_id + 2) := by
      rw [mem_insertId, mem_insertId]
      rintro ((hm | h) | h)
      · exact absurd (hEreg _ hm) (by omega)
      · omega
      · omega
    have h4 : (m0.cur_edge_id + 4) ∉ insertId
        (insertId (insertId m0.edges (m0.cur_edge_id + 1)) (m0.cur_edge_id + 2))
        (m0.cur_edge_id + 3) := by
      rw [mem_insertId, mem_insertId, mem_insertId]
      rintro (((hm | h) | h) | h)
      · exact absurd (hEreg _ hm) (by omega)
      all_goals omega
    have h5 : (m0.cur_edge_id + 5) ∉ insertId (insertId
        (insertId (insertId m0.edges (m0.cur_edge_id + 1)) (m0.cur_edge_id + 2))
        (m0.cur_edge_id + 3)) (m0.cur_edge_id + 4) := by
      rw [mem_insertId, mem_insertId, mem_insertId, mem_insertId]
      rintro ((((hm | h) | h) | h) | h)
      · exact absurd (hEreg _ hm) (by omega)
      all_goals omega
    have h6 : (m0.cur_edge_id + 6) ∉ insertId (insertId (insertId
        (insertId (insertId m0.edges (m0.cur_edge_id + 1)) (m0.cur_edge_id + 2))
        (m0.cur_edge_id + 3)) (m0.cur_edge_id + 4)) (m0.cur_edge_id + 5) := by
      rw [mem_insertId, mem_insertId, mem_insertId, mem_insertId, mem_insertId]
      rintro (((((hm | h) | h) | h) | h) | h)
      · exact absurd (hEreg _ hm) (by omega)
      all_goals omega
    rw [length_insertId_of_not_mem _ _ h6, length_insertId_of_not_mem _ _ h5,
        length_insertId_of_not_mem _ _ h4, length_insertId_of_not_mem _ _ h3,
        length_insertId_of_not_mem _ _ h2, length_insertId_of_not_mem _ _ h1]
  · rw [htid, (triPairLoop_tables _ _ _).2.2.2]
    dsimp only
    rw [hfc3, hfc2, hfc1]
    dsimp only
    unfold removeId
    have hmemf : fid ∈ insertId (insertId (insertId m0.faces (m0.cur_face_id + 1))
        (m0.cur_face_id + 2)) (m0.cur_face_id + 3) := by
      rw [mem_insertId, mem_insertId, mem_insertId]
      exact Or.inl (Or.inl (Or.inl hfidreg))
    rw [List.length_erase_of_mem hmemf]
    have hf1 : (m0.cur_face_id + 1) ∉ m0.faces := fun hm => absurd (hFreg _ hm) (by omega)
    have hf2 : (m0.cur_face_id + 2) ∉ insertId m0.faces (m0.cur_face_id + 1) := by
      rw [mem_insertId]
      rintro (hm | h)
      · exact absurd (hFreg _ hm) (by omega)
      · omega
    have hf3 : (m0.cur_face_id + 3) ∉
        insertId (insertId m0.faces (m0.cur_face_id + 1)) (m0.cur_face_id + 2) := by
      rw [mem_insertId, mem_insertId]
      rintro ((hm | h) | h)
      · exact absurd (hFreg _ hm) (by omega)
      · omega
      · omega
    rw [length_insertId_of_not_mem _ _ hf3, length_insertId_of_not_mem _ _ hf2,
        length_insertId_of_not_mem _ _ hf1]
    omega

/-- Concrete run of the amended C2 theorem: subdividing the one face of
triMesh. -/
theorem triangulate_face_full_counts_witness :
    ∃ m2 : HalfEdgeMesh Unit Unit,
      triangulate_face uOps () 1 triMesh = .ok m2 ∧
      m2.vertices.length = triMesh.vertices.length + 1 ∧
      m2.edges.length = triMesh.edges.length + 6 ∧
      m2.faces.length = triMesh.faces.length + 2 :=
  triangulate_face_full_counts uOps () 1 triMesh ⟨some 1, (), (), 1⟩ 1 2 3 1 2 3
    ⟨some 2, none, some 1, some 1, 1⟩ ⟨some 3, none, some 2, some 1, 2⟩
    ⟨some 1, none, some 3, some 1, 3⟩ ⟨some 1, (), 1⟩ ⟨some 2, (), 2⟩ ⟨some 3, (), 3⟩
    (by decide) (by decide) (by decide) (by decide) (by decide) (by decide) (by decide)
    (by decide) (by decide) (by decide) (by decide) (by decide) (by decide) (by decide)
    (by decide) (by decide) (by decide) (by decide) (by decide) (by decide) (by decide)
    (by decide) (by decide) (by decide) (by decide) (by decide) (by decide) (by decide)
    (by decide)


/-- An edge's hashing key ignores pair links: updating some pair field leaves
every vert_ab_key unchanged. -/
theorem vert_ab_key_pair_irrel {Pt : Type} (hE : List (Nat × Edge))
    (hV : List (Nat × Vert Pt)) (j : Nat) (jp : Option Nat) (e : Edge) :
    vert_ab_key (aupdate hE j (fun e2 => { e2 with pair := jp })) hV e =
      vert_ab_key hE hV e := by
  unfold vert_ab_key upg
  cases hn : e.next with
  | none => rfl
  | some n =>
    dsimp only [Option.bind]
    by_cases hj : j = n
    · subst hj
      rw [alookup_aupdate_self]
      cases alookup hE j <;> rfl
    · rw [alookup_aupdate_ne _ _ _ _ hj]

/-- Hashing keys are invariant under installing a pair link. -/
theorem abKeyAt_updE_pair {Pt Vec3 : Type} (m : HalfEdgeMesh Pt Vec3) (j : Nat)
    (jp : Option Nat) (k : Nat) :
    abKeyAt (m.updE j (fun e2 => { e2 with pair := jp })) k = abKeyAt m k := by
  unfold abKeyAt HalfEdgeMesh.updE
  dsimp only
  by_cases hk : j = k
  · subst hk
    rw [alookup_aupdate_self]
    cases he : alookup m.heapE j with
    | none => rfl
    | some e =>
      dsimp only [Option.map, Option.bind]
      rw [vert_ab_key_pair_irrel]
      rfl
  · rw [alookup_aupdate_ne _ _ _ _ hk]
    cases he : alookup m.heapE k with
    | none => rfl
    | some e =>
      dsimp only [Option.bind]
      rw [vert_ab_key_pair_irrel]

theorem alookup_aupdate_isSome_eq {κ α : Type} [DecidableEq κ] (l : List (κ × α))
    (j k : κ) (f : α → α) :
    (alookup (aupdate l j f) k).isSome = (alookup l k).isSome := by
  by_cases h : j = k
  · subst h
    rw [alookup_aupdate_self]
    cases alookup l j <;> rfl
  · rw [alookup_aupdate_ne _ _ _ _ h]

theorem ptrIsValid_aupdate {α : Type} (l : List (Nat × α)) (j : Nat) (f : α → α)
    (p : Option Nat) : ptrIsValid (aupdate l j f) p = ptrIsValid l p := by
  cases p with
  | none => rfl
  | some x =>
    unfold ptrIsValid upg
    dsimp only [Option.bind]
    rw [alookup_aupdate_isSome_eq]

theorem swapKey_swapKey (t : Nat × Nat) : swapKey (swapKey t) = t := rfl

/-- The first pass builds exactly the key-to-edge map of the registered
edges, provided keys are injective across the registered edges. -/
theorem buildEdgeHash_spec {Pt Vec3 : Type} (m : HalfEdgeMesh Pt Vec3)
    (hinj : ∀ i ∈ m.edges, ∀ j ∈ m.edges, abKeyAt m i = abKeyAt m j → i = j)
    (hnd : m.edges.Nodup) :
    ∀ (l done : List Nat) (acc h : List ((Nat × Nat) × Nat)),
      m.edges = done ++ l →
      (∀ key j, alookup acc key = some j ↔ (j ∈ done ∧ abKeyAt m j = some key)) →
      buildEdgeHash m.heapE m.heapV l acc = .ok h →
      ∀ key j, alookup h key = some j ↔ (j ∈ m.edges ∧ abKeyAt m j = some key) := by
  intro l
  induction l with
  | nil =>
    intro done acc h hsplit hacc hrun
    unfold buildEdgeHash at hrun
    injection hrun with hrun
    subst hrun
    intro key j
    rw [hacc key j, hsplit, List.append_nil]
  | cons i l2 ih =>
    intro done acc h hsplit hacc hrun
    unfold buildEdgeHash at hrun
    cases he : alookup m.heapE i with
    | none =>
      rw [he] at hrun
      dsimp only at hrun
      exact absurd hrun (by simp)
    | some e =>
      rw [he] at hrun
      dsimp only at hrun
      cases hk : vert_ab_key m.heapE m.heapV e with
      | none =>
        rw [hk] at hrun
        dsimp only at hrun
        exact absurd hrun (by simp)
      | some key_i =>
        rw [hk] at hrun
        dsimp only at hrun
        have habi : abKeyAt m i = some key_i := by
          unfold abKeyAt
          rw [he]
          exact hk
        have hiedges : i ∈ m.edges := by
          rw [hsplit]
          exact List.mem_append.mpr (Or.inr (List.mem_cons_self i l2))
        have hinotdone : i ∉ done := by
          intro hmem
          rw [hsplit] at hnd
          exact (List.disjoint_of_nodup_append hnd) hmem (List.mem_cons_self i l2)
        refine ih (done ++ [i]) (aset acc key_i i) h (by rw [hsplit]; simp) ?_ hrun
        intro key j
        by_cases hkey : key = key_i
        · subst hkey
          rw [alookup_aset_self]
          constructor
          · intro hj
            injection hj with hj
            subst hj
            exact ⟨List.mem_append.mpr (Or.inr (List.mem_singleton.mpr rfl)), habi⟩
          · rintro ⟨hjdone, habj⟩
            rcases List.mem_append.mp hjdone with hjd | hji
            · have : j ∈ m.edges := by
                rw [hsplit]
                exact List.mem_append.mpr (Or.inl hjd)
              have := hinj j this i hiedges (habj.trans habi.symm)
              subst this
              exact absurd hjd hinotdone
            · rw [List.mem_singleton.mp hji]
        · rw [alookup_aset_ne _ _ _ _ (fun hcontra => hkey hcontra.symm)]
          rw [hacc key j]
          constructor
          · rintro ⟨hjdone, habj⟩
            exact ⟨List.mem_append.mpr (Or.inl hjdone), habj⟩
          · rintro ⟨hjdone, habj⟩
            rcases List.mem_append.mp hjdone with hjd | hji
            · exact ⟨hjd, habj⟩
            · rw [List.mem_singleton.mp hji] at habj
              rw [habj] at habi
              injection habi with habi
              exact absurd habi hkey

theorem abKeyAt_pairInstall {Pt Vec3 : Type} (m : HalfEdgeMesh Pt Vec3) (i j k : Nat) :
    abKeyAt (pairInstall m i j) k = abKeyAt m k := by
  unfold pairInstall
  rw [abKeyAt_updE_pair, abKeyAt_updE_pair]

theorem isSome_pairInstall {Pt Vec3 : Type} (m : HalfEdgeMesh Pt Vec3) (i j k : Nat) :
    (alookup (pairInstall m i j).heapE k).isSome = (alookup m.heapE k).isSome := by
  unfold pairInstall HalfEdgeMesh.updE
  dsimp only
  rw [alookup_aupdate_isSome_eq, alookup_aupdate_isSome_eq]

theorem ptrIsValid_pairInstall {Pt Vec3 : Type} (m : HalfEdgeMesh Pt Vec3) (i j : Nat)
    (p : Option Nat) : ptrIsValid (pairInstall m i j).heapE p = ptrIsValid m.heapE p := by
  unfold pairInstall HalfEdgeMesh.updE
  dsimp only
  rw [ptrIsValid_aupdate, ptrIsValid_aupdate]

theorem alookup_pairInstall_left {Pt Vec3 : Type} (m : HalfEdgeMesh Pt Vec3) (i j : Nat)
    (e : Edge) (hij : i ≠ j) (he : alookup m.heapE i = some e) :
    alookup (pairInstall m i j).heapE i = some { e with pair := some j } := by
  unfold pairInstall HalfEdgeMesh.updE
  dsimp only
  rw [alookup_aupdate_ne _ _ _ _ (Ne.symm hij), alookup_aupdate_self, he]
  rfl

theorem alookup_pairInstall_right {Pt Vec3 : Type} (m : HalfEdgeMesh Pt Vec3) (i j : Nat)
    (p0 : Edge) (hij : i ≠ j) (hp0 : alookup m.heapE j = some p0) :
    alookup (pairInstall m i j).heapE j = some { p0 with pair := some i } := by
  unfold pairInstall HalfEdgeMesh.updE
  dsimp only
  rw [alookup_aupdate_self, alookup_aupdate_ne _ _ _ _ hij, hp0]
  rfl

theorem alookup_pairInstall_other {Pt Vec3 : Type} (m : HalfEdgeMesh Pt Vec3) (i j k : Nat)
    (h1 : k ≠ i) (h2 : k ≠ j) :
    alookup (pairInstall m i j).heapE k = alookup m.heapE k := by
  unfold pairInstall HalfEdgeMesh.updE
  dsimp only
  rw [alookup_aupdate_ne _ _ _ _ (Ne.symm h2), alookup_aupdate_ne _ _ _ _ (Ne.symm h1)]

/-- Main induction for C4: a successful second pass preserves the invariant,
never invalidates a valid pair link, and leaves every processed edge with a
valid pair link. -/
theorem connectLoop_mutual_ok {Pt Vec3 : Type} (edges : List Nat)
    (hash : List ((Nat × Nat) × Nat)) :
    ∀ (rest : List Nat) (m mf : HalfEdgeMesh Pt Vec3),
      (∀ k ∈ rest, k ∈ edges) →
      connectLoop hash rest m = (mf, .ok ()) →
      LoopInv edges hash m →
      LoopInv edges hash mf ∧
      (∀ k, PairValidAt m k → PairValidAt mf k) ∧
      (∀ k ∈ rest, PairValidAt mf k) := by
  intro rest
  induction rest with
  | nil =>
    intro m mf _ hrun hinv
    unfold connectLoop at hrun
    rw [Prod.mk.injEq] at hrun
    obtain ⟨rfl, -⟩ := hrun
    exact ⟨hinv, fun k h => h, fun k hk => absurd hk (List.not_mem_nil k)⟩
  | cons i rest2 ih =>
    intro m mf hsub hrun hinv
    obtain ⟨hhash, halive, hnodeg, hmut⟩ := hinv
    have hiedges : i ∈ edges := hsub i (List.mem_cons_self i rest2)
    unfold connectLoop at hrun
    cases he : alookup m.heapE i with
    | none =>
      rw [he] at hrun
      dsimp only at hrun
      rw [Prod.mk.injEq] at hrun
      exact absurd hrun.2 (by simp)
    | some e =>
      rw [he] at hrun
      dsimp only at hrun
      by_cases hval : ptrIsValid m.heapE e.pair = true
      · rw [if_pos hval] at hrun
        obtain ⟨hinvf, hmono, hrestv⟩ :=
          ih m mf (fun k hk => hsub k (List.mem_cons_of_mem i hk)) hrun
            ⟨hhash, halive, hnodeg, hmut⟩
        refine ⟨hinvf, hmono, ?_⟩
        intro k hk
        rcases List.mem_cons.mp hk with rfl | hk2
        · refine hmono k ?_
          intro e2 he2
          rw [he] at he2
          injection he2 with he2
          rw [← he2]
          exact hval
        · exact hrestv k hk2
      · rw [if_neg hval] at hrun
        cases hba : vert_ba_key m.heapE m.heapV e with
        | none =>
          rw [hba] at hrun
          dsimp only at hrun
          rw [Prod.mk.injEq] at hrun
          exact absurd hrun.2 (by simp)
        | some key =>
          rw [hba] at hrun
          dsimp only at hrun
          cases hj : alookup hash key with
          | none =>
            rw [hj] at hrun
            dsimp only at hrun
            rw [Prod.mk.injEq] at hrun
            exact absurd hrun.2 (by simp)
          | some j =>
            rw [hj] at hrun
            dsimp only at hrun
            have hab : vert_ab_key m.heapE m.heapV e = some (swapKey key) := by
              unfold vert_ba_key at hba
              cases hab2 : vert_ab_key m.heapE m.heapV e with
              | none => rw [hab2] at hba; simp at hba
              | some t =>
                rw [hab2] at hba
                dsimp only [Option.map] at hba
                injection hba with hba
                rw [← hba]
                rfl
            have habiKey : abKeyAt m i = some (swapKey key) := by
              unfold abKeyAt
              rw [he]
              exact hab
            obtain ⟨hjedges, habj⟩ := (hhash key j).mp hj
            have hij : i ≠ j := by
              intro hcontra
              subst hcontra
              have hswap : swapKey key = key :=
                Option.some.inj (habiKey.symm.trans habj)
              have h1 : key.1 = key.2 := (congrArg Prod.fst hswap).symm
              exact hnodeg i hiedges key habj h1
            have hjalive := halive j hjedges
            obtain ⟨p0, hp0⟩ := Option.isSome_iff_exists.mp hjalive
            have hrun2 : connectLoop hash rest2 (pairInstall m i j) = (mf, .ok ()) := hrun
            have hinv2 : LoopInv edges hash (pairInstall m i j) := by
              refine ⟨?_, ?_, ?_, ?_⟩
              · intro key2 j2
                rw [abKeyAt_pairInstall]
                exact hhash key2 j2
              · intro k hk
                rw [isSome_pairInstall]
                exact halive k hk
              · intro k hk t ht
                rw [abKeyAt_pairInstall] at ht
                exact hnodeg k hk t ht
              · intro k hk e2 he2 hval2
                rw [ptrIsValid_pairInstall] at hval2
                by_cases hki : k = i
                · subst hki
                  rw [alookup_pairInstall_left m k j e hij he] at he2
                  injection he2 with he2
                  subst he2
                  refine ⟨j, { p0 with pair := some k },
                    rfl, hjedges, alookup_pairInstall_right m k j p0 hij hp0, rfl, ?_⟩
                  rw [abKeyAt_pairInstall, abKeyAt_pairInstall, habiKey, habj]
                  rfl
                · by_cases hkj : k = j
                  · subst hkj
                    rw [alookup_pairInstall_right m i k p0 hij hp0] at he2
                    injection he2 with he2
                    subst he2
                    refine ⟨i, { e with pair := some k },
                      rfl, hiedges, alookup_pairInstall_left m i k e hij he, rfl, ?_⟩
                    rw [abKeyAt_pairInstall, abKeyAt_pairInstall, habiKey, habj]
                    rfl
                  · rw [alookup_pairInstall_other m i j k hki hkj] at he2
                    obtain ⟨j0, q0, hpair0, hj0edges, hlookq0, hback0, hkey0⟩ :=
                      hmut k hk e2 he2 hval2
                    have hj0i : j0 ≠ i := by
                      intro hcontra
                      subst hcontra
                      rw [he] at hlookq0
                      injection hlookq0 with hq
                      subst hq
                      apply hval
                      rw [hback0]
                      simp [ptrIsValid, upg, he2]
                    have hj0j : j0 ≠ j := by
                      intro hcontra
                      subst hcontra
                      rw [habj] at hkey0
                      cases habk : abKeyAt m k with
                      | none => rw [habk] at hkey0; simp at hkey0
                      | some tk =>
                        rw [habk] at hkey0
                        dsimp only [Option.map] at hkey0
                        injection hkey0 with hkey0
                        have habk2 : abKeyAt m k = some (swapKey key) := by
                          rw [habk, hkey0]
                          rfl
                        have h1 : alookup hash (swapKey key) = some k :=
                          (hhash (swapKey key) k).mpr ⟨hk, habk2⟩
                        have h2 : alookup hash (swapKey key) = some i :=
                          (hhash (swapKey key) i).mpr ⟨hiedges, habiKey⟩
                        rw [h1] at h2
                        injection h2 with h2
                        exact hki h2
                    refine ⟨j0, q0, hpair0, hj0edges, ?_, hback0, ?_⟩
                    · rw [alookup_pairInstall_other m i j j0 hj0i hj0j]
                      exact hlookq0
                    · rw [abKeyAt_pairInstall, abKeyAt_pairInstall]
                      exact hkey0
            obtain ⟨hinvf, hmono2, hrestv⟩ :=
              ih (pairInstall m i j) mf (fun k hk => hsub k (List.mem_cons_of_mem i hk))
                hrun2 hinv2
            refine ⟨hinvf, ?_, ?_⟩
            · intro k hvk
              apply hmono2
              intro e2 he2
              rw [ptrIsValid_pairInstall]
              by_cases hki : k = i
              · subst hki
                exact absurd (hvk e he) hval
              · by_cases hkj : k = j
                · subst hkj
                  rw [alookup_pairInstall_right m i k p0 hij hp0] at he2
                  injection he2 with he2
                  subst he2
                  dsimp only
                  simp [ptrIsValid, upg, he]
                · rw [alookup_pairInstall_other m i j k hki hkj] at he2
                  exact hvk e2 he2
            · intro k hk
              rcases List.mem_cons.mp hk with rfl | hk2
              · apply hmono2
                intro e2 he2
                rw [alookup_pairInstall_left m k j e hij he] at he2
                injection he2 with he2
                subst he2
                dsimp only
                rw [ptrIsValid_pairInstall]
                simp [ptrIsValid, upg, hp0]
              · exact hrestv k hk2

/-- C4: on a mesh whose registered edges are all allocated, with resolvable
(origin, target) keys that are pairwise distinct and non-degenerate, and with
no valid pair links, a successful connect_pairs leaves every registered
edge's pair link resolving to a partner edge whose pair link resolves back -
pairing is involutive. -/
theorem connect_pairs_ok_involutive {Pt Vec3 : Type} (m m2 : HalfEdgeMesh Pt Vec3)
    (hnd : m.edges.Nodup)
    (halive : ∀ k ∈ m.edges, (alookup m.heapE k).isSome = true)
    (hnodeg : ∀ k ∈ m.edges,
      ((abKeyAt m k).map (fun t => decide (t.1 = t.2))).getD false = false)
    (hinj : ∀ i ∈ m.edges, ∀ j ∈ m.edges, abKeyAt m i = abKeyAt m j → i = j)
    (hnovalid : ∀ k ∈ m.edges,
      ((alookup m.heapE k).map (fun e => ptrIsValid m.heapE e.pair)).getD false = false)
    (hok : connect_pairs m = (m2, .ok ())) :
    ∀ i ∈ m.edges, ∃ e j p, alookup m2.heapE i = some e ∧ e.pair = some j ∧
      alookup m2.heapE j = some p ∧ p.pair = some i := by
  unfold connect_pairs at hok
  cases hh : buildEdgeHash m.heapE m.heapV m.edges [] with
  | error s =>
    rw [hh] at hok
    dsimp only at hok
    rw [Prod.mk.injEq] at hok
    exact absurd hok.2 (by simp)
  | ok hash =>
    rw [hh] at hok
    dsimp only at hok
    have hashspec := buildEdgeHash_spec m hinj hnd m.edges [] [] hash rfl
      (fun key j => ⟨fun hjj => absurd hjj (by simp [alookup]),
        fun h => absurd h.1 (List.not_mem_nil j)⟩)
      hh
    have hinv : LoopInv m.edges hash m := by
      refine ⟨hashspec, halive, ?_, ?_⟩
      · intro k hk t ht
        have h0 := hnodeg k hk
        rw [ht] at h0
        dsimp only [Option.map, Option.getD] at h0
        exact of_decide_eq_false h0
      · intro k hk e he hval
        have h0 := hnovalid k hk
        rw [he] at h0
        dsimp only [Option.map, Option.getD] at h0
        rw [hval] at h0
        exact absurd h0 (by decide)
    obtain ⟨⟨_, halivef, _, hmutf⟩, _, hallv⟩ :=
      connectLoop_mutual_ok m.edges hash m.edges m m2 (fun k hk => hk) hok hinv
    intro i hi
    obtain ⟨e, he⟩ := Option.isSome_iff_exists.mp (halivef i hi)
    obtain ⟨j, p, hpair, _, hlookp, hback, _⟩ := hmutf i hi e he (hallv i hi e he)
    exact ⟨e, j, p, he, hpair, hlookp, hback⟩

/-- Concrete run of the C4 theorem: after connect_pairs on the closed
two-triangle pillow mesh, edge 1's installed pair links back to edge 1. -/
theorem connect_pairs_ok_involutive_witness :
    ∃ e j p, alookup (connect_pairs pillowMesh).1.heapE 1 = some e ∧ e.pair = some j ∧
      alookup (connect_pairs pillowMesh).1.heapE j = some p ∧ p.pair = some 1 :=
  connect_pairs_ok_involutive pillowMesh (connect_pairs pillowMesh).1
    (by decide) (by decide) (by decide) (by decide) (by decide) rfl 1 (by decide)

end HalfEdge
